import Mathlib

set_option maxHeartbeats 1000000

/-!
Shallow embedding of the response-normalization engine of pyBreezeChMS
(src/breeze/breeze_type_parsing.py and src/breeze/breeze_types.py).

Python values flowing through the normalizer (JSON scalars, lists, dicts,
plus the `datetime` objects produced by `datetime.strptime` and the
`AccountLogActions` enum members stored back into account logs) are embedded
as the inductive type `JValue`.  Python dicts coming from `json.loads` are
insertion-ordered with unique string keys; they are embedded as association
lists `List (String × JValue)`.

Python `float` values produced by `float(s)` on a decimal literal are
modelled as the exact rational value of the literal (`Rat`); none of the
verified properties depend on IEEE-754 rounding.

Exceptions: functions that can let an exception escape to their caller are
embedded in `Except`.  `RunErr` collects the exception kinds that the
normalization layer below the account-log action lookup can raise
(JSON decode errors, TypeError from iterating non-iterables, ValueError from
`strptime`, AttributeError from `.get` on non-dicts); that code contains no
dict subscripting, so it can never raise a KeyError.  The enum lookup
`AccountLogActions[...]` in `breeze_account_log` is the only KeyError site
and is modelled separately with `PyExn`.
-/

/-- A `datetime.datetime` as produced by `datetime.strptime`. -/
structure Datetime where
  year : Nat
  month : Nat
  day : Nat
  hour : Nat
  minute : Nat
  second : Nat
deriving DecidableEq, Repr

/-- breeze_types.AccountLogActions: the enumeration of account-log action kinds
(breeze_types.py lines 371-458), in source order. -/
inductive AccountLogActions where
  | email_sent
  | text_sent
  | contribution_added
  | contribution_updated
  | contribution_deleted
  | bulk_contributions_deleted
  | envelope_created
  | envelope_updated
  | envelope_deleted
  | payment_method_updated
  | payment_method_deleted
  | payment_method_created
  | bank_account_added
  | bank_account_updated
  | transfer_day_changed
  | bank_account_deleted
  | payment_association_deleted
  | payment_association_created
  | bulk_import_contributions
  | bulk_import_pledges
  | bulk_pledges_deleted
  | batch_updated
  | batch_deleted
  | bulk_envelopes_deleted
  | event_created
  | event_updated
  | event_deleted
  | event_instance_deleted
  | event_future_deleted
  | events_calendar_created
  | events_calendar_updated
  | events_calendar_deleted
  | bulk_import_attendance
  | attendance_deleted
  | bulk_attendance_deleted
  | volunteer_role_created
  | volunteer_role_deleted
  | person_created
  | person_updated
  | person_deleted
  | person_archived
  | person_merged
  | people_updated
  | bulk_update_people
  | bulk_people_deleted
  | bulk_people_archived
  | bulk_import_people
  | bulk_notes_deleted
  | tag_created
  | tag_updated
  | tag_deleted
  | bulk_tags_deleted
  | tag_folder_created
  | tag_folder_updated
  | tag_folder_deleted
  | tag_assign
  | tag_unassign
  | form_created
  | form_updated
  | form_deleted
  | form_entry_updated
  | form_entry_deleted
  | followup_option_created
  | followup_option_updated
  | followup_option_deleted
  | user_created
  | user_updated
  | user_deleted
  | role_created
  | role_updated
  | role_deleted
  | extension_installed
  | extension_uninstalled
  | extension_upgraded
  | extension_downgraded
  | sub_payment_method_updated
deriving DecidableEq, Repr

/-- `AccountLogActions[name]`: the enum member with the given name, if any.
Mirrors Python Enum name subscripting over the member map. -/
def actionOfName (s : String) : Option AccountLogActions :=
  match s with
  | "email_sent" => some .email_sent
  | "text_sent" => some .text_sent
  | "contribution_added" => some .contribution_added
  | "contribution_updated" => some .contribution_updated
  | "contribution_deleted" => some .contribution_deleted
  | "bulk_contributions_deleted" => some .bulk_contributions_deleted
  | "envelope_created" => some .envelope_created
  | "envelope_updated" => some .envelope_updated
  | "envelope_deleted" => some .envelope_deleted
  | "payment_method_updated" => some .payment_method_updated
  | "payment_method_deleted" => some .payment_method_deleted
  | "payment_method_created" => some .payment_method_created
  | "bank_account_added" => some .bank_account_added
  | "bank_account_updated" => some .bank_account_updated
  | "transfer_day_changed" => some .transfer_day_changed
  | "bank_account_deleted" => some .bank_account_deleted
  | "payment_association_deleted" => some .payment_association_deleted
  | "payment_association_created" => some .payment_association_created
  | "bulk_import_contributions" => some .bulk_import_contributions
  | "bulk_import_pledges" => some .bulk_import_pledges
  | "bulk_pledges_deleted" => some .bulk_pledges_deleted
  | "batch_updated" => some .batch_updated
  | "batch_deleted" => some .batch_deleted
  | "bulk_envelopes_deleted" => some .bulk_envelopes_deleted
  | "event_created" => some .event_created
  | "event_updated" => some .event_updated
  | "event_deleted" => some .event_deleted
  | "event_instance_deleted" => some .event_instance_deleted
  | "event_future_deleted" => some .event_future_deleted
  | "events_calendar_created" => some .events_calendar_created
  | "events_calendar_updated" => some .events_calendar_updated
  | "events_calendar_deleted" => some .events_calendar_deleted
  | "bulk_import_attendance" => some .bulk_import_attendance
  | "attendance_deleted" => some .attendance_deleted
  | "bulk_attendance_deleted" => some .bulk_attendance_deleted
  | "volunteer_role_created" => some .volunteer_role_created
  | "volunteer_role_deleted" => some .volunteer_role_deleted
  | "person_created" => some .person_created
  | "person_updated" => some .person_updated
  | "person_deleted" => some .person_deleted
  | "person_archived" => some .person_archived
  | "person_merged" => some .person_merged
  | "people_updated" => some .people_updated
  | "bulk_update_people" => some .bulk_update_people
  | "bulk_people_deleted" => some .bulk_people_deleted
  | "bulk_people_archived" => some .bulk_people_archived
  | "bulk_import_people" => some .bulk_import_people
  | "bulk_notes_deleted" => some .bulk_notes_deleted
  | "tag_created" => some .tag_created
  | "tag_updated" => some .tag_updated
  | "tag_deleted" => some .tag_deleted
  | "bulk_tags_deleted" => some .bulk_tags_deleted
  | "tag_folder_created" => some .tag_folder_created
  | "tag_folder_updated" => some .tag_folder_updated
  | "tag_folder_deleted" => some .tag_folder_deleted
  | "tag_assign" => some .tag_assign
  | "tag_unassign" => some .tag_unassign
  | "form_created" => some .form_created
  | "form_updated" => some .form_updated
  | "form_deleted" => some .form_deleted
  | "form_entry_updated" => some .form_entry_updated
  | "form_entry_deleted" => some .form_entry_deleted
  | "followup_option_created" => some .followup_option_created
  | "followup_option_updated" => some .followup_option_updated
  | "followup_option_deleted" => some .followup_option_deleted
  | "user_created" => some .user_created
  | "user_updated" => some .user_updated
  | "user_deleted" => some .user_deleted
  | "role_created" => some .role_created
  | "role_updated" => some .role_updated
  | "role_deleted" => some .role_deleted
  | "extension_installed" => some .extension_installed
  | "extension_uninstalled" => some .extension_uninstalled
  | "extension_upgraded" => some .extension_upgraded
  | "extension_downgraded" => some .extension_downgraded
  | "sub_payment_method_updated" => some .sub_payment_method_updated
  | _ => none

/-- A Python value as it occurs in Breeze payloads: JSON scalars, lists and
(insertion-ordered, string-keyed) dicts, plus the datetimes and enum members
the normalizer writes back. -/
inductive JValue where
  | null
  | bool (b : Bool)
  | int (n : Int)
  | float (q : Rat)
  | str (s : String)
  | date (d : Datetime)
  | action (a : AccountLogActions)
  | list (xs : List JValue)
  | obj (kvs : List (String × JValue))

/-- Exception kinds that the normalization layer below the account-log action
lookup can raise: uncaught `json.loads` failures, TypeError from iterating a
non-iterable, ValueError from `strptime` (always caught in `str_to_date`),
AttributeError from `.get` on a non-dict schema entry.  That layer performs no
dict subscripting, so KeyError cannot occur in it. -/
inductive RunErr where
  | jsonError (msg : String)
  | typeError (msg : String)
  | valueError (msg : String)
  | attributeError (msg : String)
deriving DecidableEq, Repr

/-- Exceptions of `breeze_account_log`: the KeyError (or TypeError for an
unhashable key) of the `AccountLogActions[...]` lookup, or an exception
propagated from the normalization layer. -/
inductive PyExn where
  | keyError (msg : String)
  | other (e : RunErr)
deriving DecidableEq, Repr

/-! ## Character and string helpers (models of the regular expressions used
by `type_parsing`).  Python regexes in the source use ASCII classes
(`[0-9]`); `\d`/`\s` in the date patterns are modelled by the ASCII digit and
whitespace predicates. -/

/-- Numeric value of a list of decimal digit characters (as `int(s)` on a
digit string). -/
def digitsToNat (ds : List Char) : Nat :=
  ds.foldl (fun acc c => acc * 10 + (c.toNat - 48)) 0

/-- `[0-9]+` : one or more ASCII digits and nothing else. -/
def digits1 (cs : List Char) : Bool :=
  !cs.isEmpty && cs.all (fun c => c.isDigit)

/-- Python `$` in `re.match` also accepts a position just before one
trailing newline, so an anchored pattern matches the whole string or the
string minus a final `\n`. -/
def dollarMatch (raw : List Char → Bool) (cs : List Char) : Bool :=
  raw cs || (cs.getLast? == some '\n' && raw cs.dropLast)

/-- The characters the numeric conversions act on when the anchored pattern
matched: `int`/`float` ignore the one trailing newline `$` may have
skipped. -/
def stripTrailingNl (cs : List Char) : List Char :=
  if cs.getLast? == some '\n' then cs.dropLast else cs

/-- `^[0-9]+$` (the pattern of `type_parsing.id`). -/
def digitsPat (s : String) : Bool :=
  dollarMatch digits1 s.toList

/-- `-?[0-9]+` over the whole input. -/
def intPatRaw (cs : List Char) : Bool :=
  match cs with
  | '-' :: rest => digits1 rest
  | cs => digits1 cs

/-- `^-?[0-9]+$` (the pattern of `str_to_int`). -/
def intPat (s : String) : Bool :=
  dollarMatch intPatRaw s.toList

/-- `[0-9]*\.[0-9]+` : digits, one dot, then at least one digit. -/
def floatPatCore : List Char → Bool
  | [] => false
  | '.' :: rest => digits1 rest
  | c :: rest => c.isDigit && floatPatCore rest

/-- `-?[0-9]*\.[0-9]+` over the whole input. -/
def floatPatRaw (cs : List Char) : Bool :=
  match cs with
  | '-' :: rest => floatPatCore rest
  | cs => floatPatCore cs

/-- `^-?[0-9]*\.[0-9]+$` (the pattern of `str_to_float`). -/
def floatPat (s : String) : Bool :=
  dollarMatch floatPatRaw s.toList

/-- Integer value of a string matching `^-?[0-9]+$` (as Python `int(s)`,
which strips the trailing newline `$` may have skipped). -/
def parseIntStr (s : String) : Int :=
  match stripTrailingNl s.toList with
  | '-' :: rest => -(digitsToNat rest : Int)
  | cs => (digitsToNat cs : Int)

/-- Exact rational value of a string matching `^-?[0-9]*\.[0-9]+$`
(Python `float(s)`, modelled without IEEE-754 rounding). -/
def parseFloatStr (s : String) : Rat :=
  let core : List Char → Rat := fun cs =>
    let ip := cs.takeWhile (fun c => c.isDigit)
    let fp := (cs.drop ip.length).drop 1
    (digitsToNat ip : Rat) + (digitsToNat fp : Rat) / ((10 : Rat) ^ fp.length)
  match stripTrailingNl s.toList with
  | '-' :: rest => - core rest
  | cs => core cs

/-- Does `pat` occur as a contiguous substring of the second list
(`re.search` of a literal pattern)? -/
def hasInfix (pat : List Char) : List Char → Bool
  | [] => pat.isEmpty
  | c :: rest => List.isPrefixOf pat (c :: rest) || hasInfix pat rest

/-- `key == "id" or key == "oid" or re.search(r"_id", key)` : the id-like key
test of `_known_types_formatter_` (substring match for `_id`). -/
def isIdKey (key : String) : Bool :=
  key == "id" || key == "oid" || hasInfix "_id".toList key.toList

/-- Decimal digit character (units of Python `str(n)`). -/
def digitChar (d : Nat) : Char :=
  match d with
  | 0 => '0' | 1 => '1' | 2 => '2' | 3 => '3' | 4 => '4'
  | 5 => '5' | 6 => '6' | 7 => '7' | 8 => '8' | _ => '9'

/-- Little-endian decimal digits of `n` (with enough fuel); helper for
`natToStr`. -/
def natToCharsAux : Nat → Nat → List Char
  | 0, _ => []
  | _, 0 => []
  | fuel + 1, n + 1 => digitChar ((n + 1) % 10) :: natToCharsAux fuel ((n + 1) / 10)

/-- Python `str(n)` for a natural number: its decimal representation. -/
def natToStr (n : Nat) : String :=
  if n = 0 then "0" else String.mk (natToCharsAux n n).reverse

/-! ## Dates: `DATE_TIME_FORMAT_STR_PATTERNS` and `datetime.strptime` -/

/-- The four `strptime` format strings of `DATE_TIME_FORMAT_STR_PATTERNS`,
in source (dict insertion) order. -/
inductive DateFmt where
  | ymdHms
  | ymd
  | dmy
  | mdy
deriving DecidableEq, Repr

/-- `^\d{4}-\d{2}-\d{2}\s\d{2}:\d{2}:\d{2}$` -/
def matchYmdHms (cs : List Char) : Bool :=
  match cs with
  | [y1, y2, y3, y4, '-', m1, m2, '-', d1, d2, w, h1, h2, ':', n1, n2, ':', s1, s2] =>
    y1.isDigit && y2.isDigit && y3.isDigit && y4.isDigit && m1.isDigit && m2.isDigit &&
    d1.isDigit && d2.isDigit && w.isWhitespace && h1.isDigit && h2.isDigit &&
    n1.isDigit && n2.isDigit && s1.isDigit && s2.isDigit
  | _ => false

/-- `^\d{4}-\d{2}-\d{2}$` -/
def matchYmd (cs : List Char) : Bool :=
  match cs with
  | [y1, y2, y3, y4, '-', m1, m2, '-', d1, d2] =>
    y1.isDigit && y2.isDigit && y3.isDigit && y4.isDigit && m1.isDigit && m2.isDigit &&
    d1.isDigit && d2.isDigit
  | _ => false

/-- `\d{1,2}` followed by a given separator, generic piece for the last two
patterns: returns the rest after the separator. -/
def chomp12Sep (sep : Char) (cs : List Char) : Option (List Char) :=
  let ds := cs.takeWhile (fun c => c.isDigit)
  if ds.isEmpty || 2 < ds.length then none
  else match cs.drop ds.length with
    | c :: rest => if c = sep then some rest else none
    | [] => none

/-- `^\d{1,2}-\d{1,2}-\d{4}$` (for sep `-`) and `^\d{1,2}\/\d{1,2}\/\d{4}$`
(for sep `/`). -/
def matchDdMmYyyy (sep : Char) (cs : List Char) : Bool :=
  match chomp12Sep sep cs with
  | none => false
  | some r1 =>
    match chomp12Sep sep r1 with
    | none => false
    | some r2 => r2.length == 4 && r2.all (fun c => c.isDigit)

/-- First pattern of `DATE_TIME_FORMAT_STR_PATTERNS` whose regex matches, in
dict order (`str_to_date` iterates the dict and takes the first match). -/
def firstMatchingFormat (s : String) : Option DateFmt :=
  let cs := s.toList
  if dollarMatch matchYmdHms cs then some .ymdHms
  else if dollarMatch matchYmd cs then some .ymd
  else if dollarMatch (matchDdMmYyyy '-') cs then some .dmy
  else if dollarMatch (matchDdMmYyyy '/') cs then some .mdy
  else none

/-- Greedy run of digits of length 1..maxLen, as `strptime` numeric fields
(`%Y` take up to 4, `%m`/`%d`/`%H`/`%M`/`%S` up to 2); fails when the run is
empty or longer than the field allows (a longer run makes the following
literal fail under every backtracking split). -/
def grabNum (maxLen : Nat) (cs : List Char) : Option (Nat × List Char) :=
  let ds := cs.takeWhile (fun c => c.isDigit)
  if ds.isEmpty || maxLen < ds.length then none
  else some (digitsToNat ds, cs.drop ds.length)

/-- Expect one literal character. -/
def expectChar (c : Char) : List Char → Option (List Char)
  | x :: rest => if x = c then some rest else none
  | [] => none

/-- Whitespace in a `strptime` format matches one or more whitespace
characters. -/
def skipWs1 (cs : List Char) : Option (List Char) :=
  let ws := cs.takeWhile (fun c => c.isWhitespace)
  if ws.isEmpty then none else some (cs.drop ws.length)

/-- Field extraction of `datetime.strptime` for the four formats: returns
`(year, month, day, hour, minute, second)` when the string has the shape of
the format. -/
def parseByFormat (fmt : DateFmt) (cs : List Char) : Option (Nat × Nat × Nat × Nat × Nat × Nat) :=
  match fmt with
  | .ymdHms => do
    let (y, r) ← grabNum 4 cs
    let r ← expectChar '-' r
    let (m, r) ← grabNum 2 r
    let r ← expectChar '-' r
    let (d, r) ← grabNum 2 r
    let r ← skipWs1 r
    let (hh, r) ← grabNum 2 r
    let r ← expectChar ':' r
    let (mm, r) ← grabNum 2 r
    let r ← expectChar ':' r
    let (ss, r) ← grabNum 2 r
    if r.isEmpty then some (y, m, d, hh, mm, ss) else none
  | .ymd => do
    let (y, r) ← grabNum 4 cs
    let r ← expectChar '-' r
    let (m, r) ← grabNum 2 r
    let r ← expectChar '-' r
    let (d, r) ← grabNum 2 r
    if r.isEmpty then some (y, m, d, 0, 0, 0) else none
  | .dmy => do
    let (d, r) ← grabNum 2 cs
    let r ← expectChar '-' r
    let (m, r) ← grabNum 2 r
    let r ← expectChar '-' r
    let (y, r) ← grabNum 4 r
    if r.isEmpty then some (y, m, d, 0, 0, 0) else none
  | .mdy => do
    let (m, r) ← grabNum 2 cs
    let r ← expectChar '/' r
    let (d, r) ← grabNum 2 r
    let r ← expectChar '/' r
    let (y, r) ← grabNum 4 r
    if r.isEmpty then some (y, m, d, 0, 0, 0) else none

/-- Days in a month under the Gregorian leap rule (as `datetime`). -/
def daysInMonth (y m : Nat) : Nat :=
  if m = 2 then (if y % 4 = 0 && (y % 100 != 0 || y % 400 = 0) then 29 else 28)
  else if m = 4 || m = 6 || m = 9 || m = 11 then 30
  else 31

/-- `datetime.strptime(s, fmt)`: extracts the fields and validates them as the
`datetime` constructor does (year 1..9999, month 1..12, day within the month,
hour below 24, minute below 60, second below 60 - `%S` lets 60 and 61 through
the field regex but the `datetime` constructor then raises ValueError, so an
out-of-range second is a ValueError either way).  Invalid input raises
ValueError. -/
def strptimeE (fmt : DateFmt) (s : String) : Except RunErr Datetime :=
  match parseByFormat fmt s.toList with
  | none => .error (.valueError s)
  | some (y, m, d, hh, mm, ss) =>
    if 1 ≤ y && 1 ≤ m && m ≤ 12 && 1 ≤ d && d ≤ daysInMonth y m && hh ≤ 23 && mm ≤ 59 && ss ≤ 59
    then .ok ⟨y, m, d, hh, mm, ss⟩
    else .error (.valueError s)

/-! ## Python value helpers -/

/-- Python truthiness of the embedded values. -/
def jTruthy : JValue → Bool
  | .null => false
  | .bool b => b
  | .int n => n != 0
  | .float q => q != 0
  | .str s => !s.isEmpty
  | .date _ => true
  | .action _ => true
  | .list xs => !xs.isEmpty
  | .obj kvs => !kvs.isEmpty

mutual
/-- Python `==` on the embedded values: numeric types compare across
`bool`/`int`/`float`, sequences compare elementwise, everything else compares
within its own type only.  (Python dict equality is order-insensitive; the
order-sensitive embedding here is only ever applied with a scalar on one
side, where the two agree.) -/
def pyEq : JValue → JValue → Bool
  | .null, .null => true
  | .bool a, .bool b => a == b
  | .bool a, .int b => (if a then (1 : Int) else 0) == b
  | .int a, .bool b => a == (if b then (1 : Int) else 0)
  | .bool a, .float b => (if a then (1 : Rat) else 0) == b
  | .float a, .bool b => a == (if b then (1 : Rat) else 0)
  | .int a, .int b => a == b
  | .int a, .float b => (a : Rat) == b
  | .float a, .int b => a == (b : Rat)
  | .float a, .float b => a == b
  | .str a, .str b => a == b
  | .date a, .date b => a == b
  | .action a, .action b => a == b
  | .list xs, .list ys => pyEqList xs ys
  | .obj xs, .obj ys => pyEqObj xs ys
  | _, _ => false
def pyEqList : List JValue → List JValue → Bool
  | [], [] => true
  | x :: xs, y :: ys => pyEq x y && pyEqList xs ys
  | _, _ => false
def pyEqObj : List (String × JValue) → List (String × JValue) → Bool
  | [], [] => true
  | (k1, v1) :: xs, (k2, v2) :: ys => k1 == k2 && pyEq v1 v2 && pyEqObj xs ys
  | _, _ => false
end

/-- Python `str(v)` for the scalar values that can reach it in this
development (enum-lookup error messages and schema field ids). -/
def pyStr : JValue → String
  | .null => "None"
  | .bool b => if b then "True" else "False"
  | .int n => if n < 0 then "-" ++ natToStr n.natAbs else natToStr n.natAbs
  | .str s => s
  | .float _ => "float"
  | .date _ => "datetime"
  | .action _ => "AccountLogActions"
  | .list _ => "list"
  | .obj _ => "dict"

/-- Python iteration (`for x in v` / `map(f, v)`): lists yield their
elements, dicts their keys, strings their characters as 1-character strings;
scalars raise TypeError. -/
def pyIterE : JValue → Except RunErr (List JValue)
  | .list xs => .ok xs
  | .obj kvs => .ok (kvs.map (fun kv => JValue.str kv.1))
  | .str s => .ok (s.toList.map (fun c => JValue.str (String.mk [c])))
  | _ => .error (.typeError "object is not iterable")

namespace type_parsing

/-- `type_parsing.str_to_date` (lines 32-47): falsy values pass through; a
string is matched against the four patterns in dict order and the first
matching pattern is parsed with `strptime`; a ValueError there is caught and
`None` returned; any other exception would be re-raised (the `strptime`
model only raises ValueError, so this function in fact never raises - see
`str_to_dateE_ok`).  Non-string truthy values pass through unchanged. -/
def str_to_dateE (date : JValue) : Except RunErr JValue :=
  if jTruthy date = false then .ok date
  else match date with
    | .str s =>
      match firstMatchingFormat s with
      | some fmt =>
        match strptimeE fmt s with
        | .ok d => .ok (.date d)
        | .error (RunErr.valueError _) => .ok .null
        | .error e => .error e
      | none => .ok (.str s)
    | v => .ok v

/-- `type_parsing.to_bool` (lines 50-59): genuine booleans pass through;
values `== "1"/"true"/"on"/1` become `True`, values `== "0"/"false"/"off"/0`
become `False`; everything else passes through unchanged. -/
def to_bool (bool_val : JValue) : JValue :=
  match bool_val with
  | .bool b => .bool b
  | v =>
    if pyEq v (.str "1") || pyEq v (.str "true") || pyEq v (.str "on") || pyEq v (.int 1) then
      .bool true
    else if pyEq v (.str "0") || pyEq v (.str "false") || pyEq v (.str "off") || pyEq v (.int 0) then
      .bool false
    else v

/-- `type_parsing.id` (lines 62-67): strings of digits become integers (no
size bound, unlike `str_to_int`); everything else passes through. -/
def id (idv : JValue) : JValue :=
  match idv with
  | .str s => if digitsPat s then .int (digitsToNat (stripTrailingNl s.toList) : Int) else .str s
  | v => v

/-- `type_parsing.str_to_int` (lines 70-81): a string matching `^-?[0-9]+$`
is parsed as an integer unless `num.bit_length() > 63` (that is, unless
`|num| ≥ 2^63`), in which case the original string is returned; everything
else passes through. -/
def str_to_int (int_str : JValue) : JValue :=
  match int_str with
  | .str s =>
    if intPat s then
      let num := parseIntStr s
      if num.natAbs < 2 ^ 63 then .int num else .str s
    else .str s
  | v => v

/-- `type_parsing.str_to_float` (lines 84-89). -/
def str_to_float (float_str : JValue) : JValue :=
  match float_str with
  | .str s => if floatPat s then .float (parseFloatStr s) else .str s
  | v => v

/-- The loop of `type_parsing.object_list` (lines 98-100): every index
`0..len-1` must be present as a key (dict keys coming from JSON are strings,
so the `i in obj` integer-key test of the source is always false and only
`str(i) in obj` can succeed). -/
def objIsIndexList (kvs : List (String × JValue)) : Bool :=
  (List.range kvs.length).all (fun i => kvs.any (fun kv => kv.1 == natToStr i))

/-- `type_parsing.object_list` (lines 92-102): a dict whose keys contain
every decimal index `0..len-1` is converted to the list of its values (in
insertion order); any other value is returned unchanged. -/
def object_list (obj : JValue) : JValue :=
  match obj with
  | .obj kvs => if objIsIndexList kvs then .list (kvs.map Prod.snd) else .obj kvs
  | v => v

end type_parsing

namespace ReturnTypeParsers

/-- `ReturnTypeParsers._known_types_formatter_` (lines 130-146): id-like keys
route through `type_parsing.id`; other string values try `str_to_int`, then
`str_to_float`, then `str_to_date`; non-string values fall to `str_to_date`,
which passes them through. -/
def known_types_formatterE (key : String) (value : JValue) : Except RunErr JValue :=
  if isIdKey key then .ok (type_parsing.id value)
  else match value with
    | .str s =>
      match type_parsing.str_to_int (.str s) with
      | .int n => .ok (.int n)
      | v2 =>
        match type_parsing.str_to_float v2 with
        | .float q => .ok (.float q)
        | v3 => type_parsing.str_to_dateE v3
    | v => type_parsing.str_to_dateE v

mutual
/-- `ReturnTypeParsers._parse_types_` (lines 148-170): lists recurse
elementwise with no custom parser; dicts apply the custom parser (when
given) and then the known-types formatter to every entry value, keeping the
key; scalars go to the known-types formatter under the placeholder key
`_` (which is not id-like). -/
def parse_typesE (custom : Option (String → JValue → Except RunErr JValue)) :
    JValue → Except RunErr JValue
  | .list xs => do
    pure (.list (← parse_types_listE xs))
  | .obj kvs => do
    pure (.obj (← parse_types_objE custom kvs))
  | v => known_types_formatterE "_" v
/-- Element loop of the list branch of `_parse_types_` (lines 152-157): each
element is walked with the default (no custom parser) path. -/
def parse_types_listE : List JValue → Except RunErr (List JValue)
  | [] => pure []
  | x :: xs => do
    pure ((← parse_typesE none x) :: (← parse_types_listE xs))
/-- Entry loop of the dict branch of `_parse_types_` (lines 159-168): the
custom parser (when given) runs first on each value, then the known-types
formatter, and the result is stored back under the same key. -/
def parse_types_objE (custom : Option (String → JValue → Except RunErr JValue)) :
    List (String × JValue) → Except RunErr (List (String × JValue))
  | [] => pure []
  | (k, v) :: kvs => do
    let v ← match custom with
      | some f => f k v
      | none => pure v
    let v ← known_types_formatterE k v
    pure ((k, v) :: (← parse_types_objE custom kvs))
end

mutual
/-- `ReturnTypeParsers._unknown_value_formatter_` (lines 114-128): dicts are
walked by `_parse_types_` with this function itself as the custom parser,
lists map this function over their elements with the placeholder key `_`,
and scalars go to the known-types formatter under the original key. -/
def unknown_value_formatterE (key : String) (value : JValue) : Except RunErr JValue :=
  match value with
  | .obj kvs => do
    pure (.obj (← unknown_value_objE kvs))
  | .list xs => do
    pure (.list (← unknown_value_listE xs))
  | v => known_types_formatterE key v
/-- The dict case of `_unknown_value_formatter_`: the entry loop of
`_parse_types_` with `recursive_formatter` as the custom parser. -/
def unknown_value_objE : List (String × JValue) → Except RunErr (List (String × JValue))
  | [] => pure []
  | (k, v) :: kvs => do
    let v ← unknown_value_formatterE k v
    let v ← known_types_formatterE k v
    pure ((k, v) :: (← unknown_value_objE kvs))
/-- The list case of `_unknown_value_formatter_` (lines 122-126). -/
def unknown_value_listE : List JValue → Except RunErr (List JValue)
  | [] => pure []
  | x :: xs => do
    pure ((← unknown_value_formatterE "_" x) :: (← unknown_value_listE xs))
end

end ReturnTypeParsers

/-! ## A model of Python `json.loads` (strict mode): whitespace, objects,
arrays, strings with escapes, numbers, `true`/`false`/`null`.  (The
`NaN`/`Infinity` extensions of the Python parser are not modelled; no input
in this development uses them.) -/

/-- JSON whitespace. -/
def jsonWs (c : Char) : Bool :=
  c = ' ' || c = '\t' || c = '\n' || c = '\r'

/-- Skip JSON whitespace. -/
def skipJsonWs (cs : List Char) : List Char :=
  cs.dropWhile jsonWs

/-- Hexadecimal digit value. -/
def hexVal (c : Char) : Option Nat :=
  if c.isDigit then some (c.toNat - 48)
  else if 'a' ≤ c && c ≤ 'f' then some (c.toNat - 87)
  else if 'A' ≤ c && c ≤ 'F' then some (c.toNat - 55)
  else none

/-- Single-character JSON escapes. -/
def escChar (e : Char) : Option Char :=
  if e = '"' then some '"'
  else if e = '\\' then some '\\'
  else if e = '/' then some '/'
  else if e = 'b' then some (Char.ofNat 8)
  else if e = 'f' then some (Char.ofNat 12)
  else if e = 'n' then some '\n'
  else if e = 'r' then some '\r'
  else if e = 't' then some '\t'
  else none

/-- JSON string body (after the opening quote): returns the decoded
characters and the rest after the closing quote.  Strict mode rejects
unescaped control characters. -/
def jsonString : List Char → Option (List Char × List Char)
  | [] => none
  | c :: rest =>
    if c = '"' then some ([], rest)
    else if c = '\\' then
      match rest with
      | [] => none
      | e :: rest2 =>
        if e = 'u' then
          match rest2 with
          | h1 :: h2 :: h3 :: h4 :: rest3 =>
            match hexVal h1, hexVal h2, hexVal h3, hexVal h4 with
            | some a, some b, some c2, some d => do
              let (s, r) ← jsonString rest3
              some (Char.ofNat (((a * 16 + b) * 16 + c2) * 16 + d) :: s, r)
            | _, _, _, _ => none
          | _ => none
        else
          match escChar e with
          | some ch => do
            let (s, r) ← jsonString rest2
            some (ch :: s, r)
          | none => none
    else if c.toNat < 32 then none
    else do
      let (s, r) ← jsonString rest
      some (c :: s, r)

/-- Optional exponent part of a JSON number. -/
def jsonExp (cs : List Char) : Option (Option Int × List Char) :=
  match cs with
  | c :: rest =>
    if c = 'e' || c = 'E' then
      let (sgn, r1) : Int × List Char :=
        match rest with
        | '+' :: r => (1, r)
        | '-' :: r => (-1, r)
        | _ => (1, rest)
      let ds := r1.takeWhile (fun c => c.isDigit)
      if ds.isEmpty then none
      else some (some (sgn * (digitsToNat ds : Int)), r1.drop ds.length)
    else some (none, cs)
  | [] => some (none, [])

/-- Scale a rational by a power of ten. -/
def applyExp (q : Rat) (e : Int) : Rat :=
  if 0 ≤ e then q * (10 : Rat) ^ e.toNat else q / (10 : Rat) ^ (-e).toNat

/-- JSON number: `-?(0|[1-9][0-9]*)(\.[0-9]+)?([eE][+-]?[0-9]+)?`; an integer
literal (no fraction, no exponent) loads as `int`, anything else as
`float`. -/
def jsonNumber (cs : List Char) : Option (JValue × List Char) :=
  let (neg, cs1) : Bool × List Char :=
    match cs with
    | '-' :: r => (true, r)
    | _ => (false, cs)
  let ip := cs1.takeWhile (fun c => c.isDigit)
  if ip.isEmpty then none
  else if 1 < ip.length && ip.headD '0' == '0' then none
  else
    let r1 := cs1.drop ip.length
    let ipv : Nat := digitsToNat ip
    match r1 with
    | '.' :: rr =>
      let fp := rr.takeWhile (fun c => c.isDigit)
      if fp.isEmpty then none
      else do
        let base : Rat := (ipv : Rat) + (digitsToNat fp : Rat) / ((10 : Rat) ^ fp.length)
        let (eo, r3) ← jsonExp (rr.drop fp.length)
        let q := match eo with
          | some e => applyExp base e
          | none => base
        some (.float (if neg then -q else q), r3)
    | _ => do
      let (eo, r2) ← jsonExp r1
      match eo with
      | some e => some (.float (applyExp (if neg then -(ipv : Rat) else (ipv : Rat)) e), r2)
      | none => some (.int (if neg then -(ipv : Int) else (ipv : Int)), r2)

mutual
/-- JSON value (fuel-bounded recursive descent; every recursive call first
consumes at least one character, so `length + 1` fuel always suffices). -/
def jsonValue : Nat → List Char → Option (JValue × List Char)
  | 0, _ => none
  | fuel + 1, cs =>
    match skipJsonWs cs with
    | [] => none
    | c :: rest =>
      if c = '"' then do
        let (s, r) ← jsonString rest
        some (.str (String.mk s), r)
      else if c = '\x7b' then
        match skipJsonWs rest with
        | '\x7d' :: rr => some (.obj [], rr)
        | r => do
          let (ms, rr) ← jsonMembers fuel r
          some (.obj ms, rr)
      else if c = '[' then
        match skipJsonWs rest with
        | ']' :: rr => some (.list [], rr)
        | r => do
          let (xs, rr) ← jsonElements fuel r
          some (.list xs, rr)
      else
        match c :: rest with
        | 't' :: 'r' :: 'u' :: 'e' :: r => some (.bool true, r)
        | 'f' :: 'a' :: 'l' :: 's' :: 'e' :: r => some (.bool false, r)
        | 'n' :: 'u' :: 'l' :: 'l' :: r => some (.null, r)
        | cs2 => jsonNumber cs2
/-- Non-empty member list of a JSON object (positioned at the first key). -/
def jsonMembers : Nat → List Char → Option (List (String × JValue) × List Char)
  | 0, _ => none
  | fuel + 1, cs =>
    match skipJsonWs cs with
    | '"' :: r1 => do
      let (k, r2) ← jsonString r1
      match skipJsonWs r2 with
      | ':' :: r3 => do
        let (v, r4) ← jsonValue fuel r3
        match skipJsonWs r4 with
        | ',' :: r5 => do
          let (ms, r6) ← jsonMembers fuel r5
          some ((String.mk k, v) :: ms, r6)
        | '\x7d' :: r5 => some ([(String.mk k, v)], r5)
        | _ => none
      | _ => none
    | _ => none
/-- Non-empty element list of a JSON array. -/
def jsonElements : Nat → List Char → Option (List JValue × List Char)
  | 0, _ => none
  | fuel + 1, cs => do
    let (v, r1) ← jsonValue fuel cs
    match skipJsonWs r1 with
    | ',' :: r2 => do
      let (xs, r3) ← jsonElements fuel r2
      some (v :: xs, r3)
    | ']' :: r2 => some ([v], r2)
    | _ => none
end

/-- `json.loads`: parse one JSON document with nothing but whitespace after
it. -/
def json_loads (s : String) : Option JValue := do
  let (v, rest) ← jsonValue (s.length + 1) s.toList
  if (skipJsonWs rest).isEmpty then some v else none

/-- `json.loads` at a call site that does not catch its exception
(`json.JSONDecodeError`). -/
def jsonLoadsE (s : String) : Except RunErr JValue :=
  match json_loads s with
  | some v => .ok v
  | none => .error (.jsonError s)

/-! ## Dict helpers -/

/-- Python `d.get(k, dflt)` on a (string-keyed, insertion-ordered) dict. -/
def dictGetD (kvs : List (String × JValue)) (k : String) (dflt : JValue) : JValue :=
  match kvs.find? (fun kv => kv.1 == k) with
  | some kv => kv.2
  | none => dflt

/-- Python `k in d`. -/
def containsKey (k : String) (kvs : List (String × JValue)) : Bool :=
  kvs.any (fun kv => kv.1 == k)

/-- Python `d.pop(k)` (dict keys are unique, so removing the first and only
entry with the key). -/
def dictPop (k : String) (kvs : List (String × JValue)) : List (String × JValue) :=
  kvs.eraseP (fun kv => kv.1 == k)

/-- Python `d[k] = v`: replace in place when the key exists (keeping its
position), append otherwise. -/
def dictSet (kvs : List (String × JValue)) (k : String) (v : JValue) : List (String × JValue) :=
  if containsKey k kvs then kvs.map (fun kv => if kv.1 == k then (kv.1, v) else kv)
  else kvs ++ [(k, v)]

/-! ## Person normalization: schema lookup and the person/family mutual
recursion -/

/-- The set-valued lookup built by
`ReturnTypeParsers._profile_fields_parsering_ids_lookup` (lines 229-251).
Python uses sets; only membership is ever tested, so lists (possibly with
duplicates) are an equivalent embedding. -/
structure ParsingIds where
  email_field_ids : List String
  phone_field_ids : List String
  address_field_ids : List String
deriving DecidableEq, Repr

namespace ReturnTypeParsers

/-- Inner loop of `_profile_fields_parsering_ids_lookup` (lines 236-246):
fields missing `field_id` or `field_type` (or with falsy ones) are skipped,
the rest are grouped by the literal `field_type`; a non-dict field raises
AttributeError at `field.get`. -/
def profile_fields_goE (acc : ParsingIds) : List JValue → Except RunErr ParsingIds
  | [] => .ok acc
  | f :: rest =>
    match f with
    | .obj fkvs =>
      let field_type := dictGetD fkvs "field_type" .null
      let field_id := dictGetD fkvs "field_id" .null
      let acc :=
        if !jTruthy field_id || !jTruthy field_type then acc
        else if pyEq field_type (.str "email") then
          ParsingIds.mk (acc.email_field_ids ++ [pyStr field_id]) acc.phone_field_ids
            acc.address_field_ids
        else if pyEq field_type (.str "phone") then
          ParsingIds.mk acc.email_field_ids (acc.phone_field_ids ++ [pyStr field_id])
            acc.address_field_ids
        else if pyEq field_type (.str "address") then
          ParsingIds.mk acc.email_field_ids acc.phone_field_ids
            (acc.address_field_ids ++ [pyStr field_id])
        else acc
      profile_fields_goE acc rest
    | _ => .error (.attributeError "field.get on a non-dict")

/-- Outer loop of `_profile_fields_parsering_ids_lookup` (line 235): each
field group contributes its `fields` entries (default `[]`); a non-dict
group raises AttributeError at `field_group.get`, a non-iterable `fields`
value raises TypeError. -/
def profile_groups_goE (acc : ParsingIds) : List JValue → Except RunErr ParsingIds
  | [] => .ok acc
  | fg :: rest =>
    match fg with
    | .obj kvs => do
      let fields ← pyIterE (dictGetD kvs "fields" (.list []))
      let acc ← profile_fields_goE acc fields
      profile_groups_goE acc rest
    | _ => .error (.attributeError "field_group.get on a non-dict")

/-- `ReturnTypeParsers._profile_fields_parsering_ids_lookup` (lines
229-251). -/
def profile_fields_parsering_ids_lookupE (profile_fields : List JValue) :
    Except RunErr ParsingIds :=
  profile_groups_goE (ParsingIds.mk [] [] []) profile_fields

/-- The `email_formater` closure of `person_details_email` (lines 186-197). -/
def person_details_email_formatter (key : String) (value : JValue) : Except RunErr JValue :=
  pure (if key == "is_primary" then type_parsing.to_bool value
    else if key == "allow_bulk" then type_parsing.to_bool value
    else if key == "is_private" then type_parsing.to_bool value
    else value)

/-- `ReturnTypeParsers.person_details_email` (lines 184-199). -/
def person_details_emailE (email : JValue) : Except RunErr JValue :=
  parse_typesE (some person_details_email_formatter) email

/-- The `phone_formatter` closure of `person_details_phone` (lines 203-210). -/
def person_details_phone_formatter (key : String) (value : JValue) : Except RunErr JValue :=
  pure (if key == "do_not_text" then type_parsing.to_bool value
    else if key == "is_private" then type_parsing.to_bool value
    else value)

/-- `ReturnTypeParsers.person_details_phone` (lines 201-213). -/
def person_details_phoneE (phone : JValue) : Except RunErr JValue :=
  parse_typesE (some person_details_phone_formatter) phone

/-- The `address_formatter` closure of `person_details_address` (lines
217-224). -/
def person_details_address_formatter (key : String) (value : JValue) : Except RunErr JValue :=
  pure (if key == "is_primary" then type_parsing.to_bool value
    else if key == "is_private" then type_parsing.to_bool value
    else value)

/-- `ReturnTypeParsers.person_details_address` (lines 215-227). -/
def person_details_addressE (address : JValue) : Except RunErr JValue :=
  parse_typesE (some person_details_address_formatter) address

/-- The `detail_formatter` closure of `person_details` (lines 255-284):
schema-routed keys dispatch to the email/phone/address sub-normalizers
(mapped over lists); everything else - including schema-routed keys whose
value is neither list nor dict - falls to `_unknown_value_formatter_`. -/
def detail_formatterE (parsing_ids : ParsingIds) (key : String) (value : JValue) :
    Except RunErr JValue :=
  if parsing_ids.email_field_ids.contains key then
    match value with
    | .list xs => do pure (.list (← xs.mapM person_details_emailE))
    | .obj kvs => person_details_emailE (.obj kvs)
    | v => unknown_value_formatterE key v
  else if parsing_ids.phone_field_ids.contains key then
    match value with
    | .list xs => do pure (.list (← xs.mapM person_details_phoneE))
    | .obj kvs => person_details_phoneE (.obj kvs)
    | v => unknown_value_formatterE key v
  else if parsing_ids.address_field_ids.contains key then
    match value with
    | .list xs => do pure (.list (← xs.mapM person_details_addressE))
    | .obj kvs => person_details_addressE (.obj kvs)
    | v => unknown_value_formatterE key v
  else unknown_value_formatterE key value

/-- `ReturnTypeParsers.person_details` (lines 253-290); the final
`PersonDetails(details)` builds an equal dict (the alias `PersonDetails` is
`Dict`), so it is the identity here. -/
def person_detailsE (details : JValue) (parsing_ids : ParsingIds) : Except RunErr JValue :=
  parse_typesE (some (detail_formatterE parsing_ids)) details

/-- Auxiliary size bound for the termination of the person pack. -/
theorem sublist_sizeOf_le {α : Type} [SizeOf α] {l1 l2 : List α} (h : l1.Sublist l2) :
    sizeOf l1 ≤ sizeOf l2 := by
  induction h with
  | slnil => exact le_refl _
  | cons a _ ih => simp only [List.cons.sizeOf_spec]; omega
  | cons₂ a _ ih => simp only [List.cons.sizeOf_spec]; omega

/-- Auxiliary size bound for the termination of the person pack. -/
theorem sizeOf_map_snd_le (l : List (String × JValue)) :
    sizeOf (l.map Prod.snd) ≤ sizeOf l := by
  induction l with
  | nil => simp
  | cons kv rest ih =>
    obtain ⟨k, v⟩ := kv
    simp only [List.map_cons, List.cons.sizeOf_spec, Prod.mk.sizeOf_spec]
    have : 0 ≤ sizeOf k := by positivity
    omega

/-- The value list of a popped dict copy is smaller than the original dict
value (termination of the `search_fields` unwrap of `person`). -/
theorem sizeOf_dictPop_map_snd_lt (k : String) (kvs : List (String × JValue)) :
    sizeOf ((dictPop k kvs).map Prod.snd) < 1 + sizeOf kvs := by
  have h1 := sizeOf_map_snd_le (dictPop k kvs)
  have h2 : (dictPop k kvs).Sublist kvs := List.eraseP_sublist kvs
  have h3 := sublist_sizeOf_le h2
  omega

mutual
/-- `ReturnTypeParsers.person` (lines 309-328): builds the schema lookup,
maps `_person` over lists; for a dict with a `search_fields` key, pops that
key from a copy and, when `object_list` turns the copy into a list (every
decimal index present), recurses as `self.person` on that list - which maps
`_person` over its elements with the same (recomputed) lookup, inlined here;
otherwise `_person` runs on the original dict. -/
def personE (person : JValue) (profile_fields : List JValue) : Except RunErr JValue := do
  let parsing_ids ← profile_fields_parsering_ids_lookupE profile_fields
  match person with
  | .list ps => do pure (.list (← person_listE ps parsing_ids))
  | .obj kvs =>
    if containsKey "search_fields" kvs then
      let copy := dictPop "search_fields" kvs
      if type_parsing.objIsIndexList copy then do
        pure (.list (← person_listE (copy.map Prod.snd) parsing_ids))
      else _personE (.obj kvs) parsing_ids
    else _personE (.obj kvs) parsing_ids
  | v => _personE v parsing_ids
termination_by (sizeOf person, 1)
decreasing_by
  all_goals first
  | decreasing_tactic
  | (simp_wf
     exact Prod.Lex.left _ _ (sizeOf_dictPop_map_snd_lt "search_fields" kvs))
/-- The list mapping of `person` (lines 314-319). -/
def person_listE (ps : List JValue) (parsing_ids : ParsingIds) : Except RunErr (List JValue) :=
  match ps with
  | [] => pure []
  | p :: rest => do pure ((← _personE p parsing_ids) :: (← person_listE rest parsing_ids))
termination_by (sizeOf ps, 0)
/-- `ReturnTypeParsers._person` (lines 292-307): `_parse_types_` with the
`person_formatter` closure. -/
def _personE (person : JValue) (parsing_ids : ParsingIds) : Except RunErr JValue :=
  match person with
  | .obj kvs => do pure (.obj (← _person_objE kvs parsing_ids))
  | .list xs => do pure (.list (← parse_types_listE xs))
  | v => known_types_formatterE "_" v
termination_by (sizeOf person, 0)
/-- Dict-entry loop of `_person`: the `person_formatter` closure (lines
294-302) runs first (truthy `family` lists map through `person_family`,
truthy `details` dicts route to `person_details`; the isinstance guards are
the matches), then the known-types formatter. -/
def _person_objE (kvs : List (String × JValue)) (parsing_ids : ParsingIds) :
    Except RunErr (List (String × JValue)) :=
  match kvs with
  | [] => pure []
  | (k, v) :: rest => do
    let v ← (if k == "family" && jTruthy v then
        match v with
        | .list xs => do pure (JValue.list (← person_family_listE xs))
        | _ => pure v
      else if k == "details" && jTruthy v then
        match v with
        | .obj dkvs => person_detailsE (.obj dkvs) parsing_ids
        | _ => pure v
      else pure v)
    let v ← known_types_formatterE k v
    pure ((k, v) :: (← _person_objE rest parsing_ids))
termination_by (sizeOf kvs, 0)
/-- The `family` mapping of `person_formatter` (lines 295-297). -/
def person_family_listE (xs : List JValue) : Except RunErr (List JValue) :=
  match xs with
  | [] => pure []
  | x :: rest => do pure ((← person_familyE x) :: (← person_family_listE rest))
termination_by (sizeOf xs, 0)
/-- `ReturnTypeParsers.person_family` (lines 172-182): `_parse_types_` with
the `family_parser` closure. -/
def person_familyE (family_member : JValue) : Except RunErr JValue :=
  match family_member with
  | .obj kvs => do pure (.obj (← person_family_objE kvs))
  | .list xs => do pure (.list (← parse_types_listE xs))
  | v => known_types_formatterE "_" v
termination_by (sizeOf family_member, 0)
/-- Dict-entry loop of `person_family`: the `family_parser` closure (lines
174-179) runs first (a dict under `details` routes to `self.person` with no
schema context), then the known-types formatter. -/
def person_family_objE (kvs : List (String × JValue)) :
    Except RunErr (List (String × JValue)) :=
  match kvs with
  | [] => pure []
  | (k, v) :: rest => do
    let v ← (if k == "details" then
        match v with
        | .obj dkvs => personE (.obj dkvs) []
        | _ => unknown_value_formatterE k v
      else unknown_value_formatterE k v)
    let v ← known_types_formatterE k v
    pure ((k, v) :: (← person_family_objE rest))
termination_by (sizeOf kvs, 0)
end

/-- The `family_parser` closure of `person_family` (lines 174-179) as a
standalone function: the bridge theorems below prove that the loops inlined
in the mutual block above are exactly `_parse_types_` run with this
closure. -/
def family_custom (key : String) (value : JValue) : Except RunErr JValue :=
  if key == "details" then
    match value with
    | .obj dkvs => personE (.obj dkvs) []
    | v => unknown_value_formatterE key v
  else unknown_value_formatterE key value

/-- The `person_formatter` closure of `_person` (lines 294-302) as a
standalone function. -/
def person_custom (parsing_ids : ParsingIds) (key : String) (value : JValue) :
    Except RunErr JValue :=
  if key == "family" && jTruthy value then
    match value with
    | .list xs => do pure (JValue.list (← xs.mapM person_familyE))
    | v => pure v
  else if key == "details" && jTruthy value then
    match value with
    | .obj dkvs => person_detailsE (.obj dkvs) parsing_ids
    | v => pure v
  else pure value

end ReturnTypeParsers

/-! ## `re.findall(r'[0-9]{7,10}', s)` -/

/-- One left-to-right scan step per unit of fuel: at each position a greedy
run of at least 7 digits yields a match of at most 10 digits and scanning
resumes after the match; otherwise scanning moves one character right.  Each
step consumes at least one character, so fuel `length` suffices. -/
def findall710Aux : Nat → List Char → List (List Char)
  | 0, _ => []
  | _, [] => []
  | fuel + 1, c :: rest =>
    let run := (c :: rest).takeWhile (fun ch => ch.isDigit)
    if 7 ≤ run.length then
      let m := run.take 10
      m :: findall710Aux fuel ((c :: rest).drop m.length)
    else findall710Aux fuel rest

/-- `re.findall(r'[0-9]{7,10}', s)`: all non-overlapping greedy matches of
7-10 digit runs, in order of occurrence. -/
def findall710 (cs : List Char) : List (List Char) :=
  findall710Aux cs.length cs

namespace ReturnTypeParsers

/-! ## Fund, contribution and event normalizers -/

/-- The `fund_parser` closure of `fund` (lines 452-462). -/
def fund_custom (key : String) (value : JValue) : Except RunErr JValue :=
  if key == "tax_deductible" then pure (type_parsing.to_bool value)
  else if key == "is_default" then pure (type_parsing.to_bool value)
  else if key == "archived" then pure (type_parsing.to_bool value)
  else unknown_value_formatterE key value

/-- `ReturnTypeParsers.fund` (lines 450-464). -/
def fundE (fund : JValue) : Except RunErr JValue :=
  parse_typesE (some fund_custom) fund

/-- The `contribution_parser` closure of `contribution` (lines 468-483):
a truthy `funds` value is mapped through `fund` (iterating it, TypeError on
non-iterables), a dict `person` routes through `person` with no schema
context, everything else falls to `_unknown_value_formatter_`. -/
def contribution_custom (key : String) (value : JValue) : Except RunErr JValue :=
  if key == "funds" then
    if jTruthy value then do
      let elems ← pyIterE value
      pure (.list (← elems.mapM fundE))
    else unknown_value_formatterE key value
  else if key == "person" then
    match value with
    | .obj kvs => personE (.obj kvs) []
    | v => unknown_value_formatterE key v
  else unknown_value_formatterE key value

/-- `ReturnTypeParsers.contribution` (lines 466-486). -/
def contributionE (contribution : JValue) : Except RunErr JValue :=
  parse_typesE (some contribution_custom) contribution

/-- The `details_parser` closure of `event_details` (lines 373-411): twelve
named boolean flags are bool-cast, everything else falls to
`_unknown_value_formatter_`. -/
def event_details_custom (key : String) (value : JValue) : Except RunErr JValue :=
  if key == "input_event_repeats" then pure (type_parsing.to_bool value)
  else if key == "input_all_day" then pure (type_parsing.to_bool value)
  else if key == "check_in_print" then pure (type_parsing.to_bool value)
  else if key == "check_in_print_parent" then pure (type_parsing.to_bool value)
  else if key == "check_in_print_additional_name_tag" then pure (type_parsing.to_bool value)
  else if key == "password_for_settings" then pure (type_parsing.to_bool value)
  else if key == "check_out" then pure (type_parsing.to_bool value)
  else if key == "by_family" then pure (type_parsing.to_bool value)
  else if key == "add_person_fields" then pure (type_parsing.to_bool value)
  else if key == "show_tag_name_on_check_in" then pure (type_parsing.to_bool value)
  else if key == "enable_thumbnail" then pure (type_parsing.to_bool value)
  else if key == "is_locked" then pure (type_parsing.to_bool value)
  else unknown_value_formatterE key value

/-- `ReturnTypeParsers.event_details` (lines 371-414). -/
def event_detailsE (event_details : JValue) : Except RunErr JValue :=
  parse_typesE (some event_details_custom) event_details

/-- The `event_parser` closure of `event` (lines 418-428). -/
def event_custom (key : String) (value : JValue) : Except RunErr JValue :=
  if key == "details" then event_detailsE value
  else if key == "is_modified" then pure (type_parsing.to_bool value)
  else unknown_value_formatterE key value

/-- `ReturnTypeParsers.event` (lines 416-431). -/
def eventE (event : JValue) : Except RunErr JValue :=
  parse_typesE (some event_custom) event

/-! ## Account-log normalization -/

/-- `ReturnTypeParsers._loads_double_stringified_` (lines 107-112): a
`while isinstance(value, str) and attempts < 2` loop, unrolled to its two
possible decode attempts; the `json.loads` calls are not guarded, so a
decode failure propagates. -/
def loads_double_stringifiedE (value : JValue) : Except RunErr JValue :=
  match value with
  | .str s => do
    let v1 ← jsonLoadsE s
    match v1 with
    | .str s1 => jsonLoadsE s1
    | v => pure v
  | v => pure v

/-- The `event_created_parser` closure of `breeze_account_log_details`
(lines 617-625): a string `details_json` value is JSON-parsed and walked by
`_unknown_value_formatter_`; any exception there is caught and the original
value kept. -/
def event_created_custom (key : String) (value : JValue) : Except RunErr JValue :=
  if key == "details_json" then
    match value with
    | .str s =>
      match json_loads s with
      | some d =>
        match unknown_value_formatterE "_" d with
        | .ok r => .ok r
        | .error _ => .ok (.str s)
      | none => .ok (.str s)
    | v => pure v
  else pure value

/-- The `batch_deleted_parser` closure of `breeze_account_log_details`
(lines 602-610): the `payments` value is mapped through `contribution`
(TypeError on non-iterables), everything else passes through. -/
def batch_deleted_custom (key : String) (value : JValue) : Except RunErr JValue :=
  if key == "payments" then do
    let elems ← pyIterE value
    pure (.list (← elems.mapM contributionE))
  else pure value

/-- `ReturnTypeParsers.breeze_account_log_details` after the initial string
decode (lines 574-636): falsy results return as-is; tag assignment payloads
are double-decoded, flattened from dict to value list, filtered of empty
strings, and fall through to the generic bottom walk; non-dict/non-list
results return as-is; the contribution / batch / event action kinds route to
their sub-normalizers; everything else takes the generic bottom walk with
`unknown_parser`. -/
def breeze_account_log_details_restE (details : JValue) (action : AccountLogActions) :
    Except RunErr JValue :=
  if jTruthy details = false then .ok details
  else if action = .tag_unassign || action = .tag_assign then do
    let d ← loads_double_stringifiedE details
    let d := match d with
      | .obj kvs => JValue.list (kvs.map Prod.snd)
      | x => x
    let elems ← pyIterE d
    parse_typesE (some unknown_value_formatterE)
      (.list (elems.filter (fun tag_id => !pyEq tag_id (.str ""))))
  else
    match details with
    | .obj kvs =>
      if action = .contribution_updated then contributionE (.obj kvs)
      else if action = .contribution_deleted then contributionE (.obj kvs)
      else if action = .batch_deleted then parse_typesE (some batch_deleted_custom) (.obj kvs)
      else if action = .event_created || action = .event_updated then do
        let ev ← eventE (.obj kvs)
        parse_typesE (some event_created_custom) ev
      else parse_typesE (some unknown_value_formatterE) (.obj kvs)
    | .list xs =>
      if action = .contribution_updated then do
        pure (.list (← xs.mapM contributionE))
      else if action = .contribution_deleted then contributionE (.list xs)
      else if action = .batch_deleted then parse_typesE (some batch_deleted_custom) (.list xs)
      else if action = .event_created || action = .event_updated then do
        let ev ← eventE (.list xs)
        parse_typesE (some event_created_custom) ev
      else parse_typesE (some unknown_value_formatterE) (.list xs)
    | d => .ok d

/-- `ReturnTypeParsers.breeze_account_log_details` (lines 560-636): falsy
payloads return as-is; a string payload is decoded - for
`bulk_people_deleted` by collecting the 7-10 digit runs as integers instead
of JSON-parsing, otherwise by `json.loads` with the original string returned
on failure - and the result dispatched by action kind. -/
def breeze_account_log_detailsE (details : JValue) (action : AccountLogActions) :
    Except RunErr JValue :=
  if jTruthy details = false then .ok details
  else match details with
    | .str s =>
      if action = .bulk_people_deleted then
        breeze_account_log_details_restE
          (.list ((findall710 s.toList).map (fun ds => JValue.int (digitsToNat ds)))) action
      else
        match json_loads s with
        | some d => breeze_account_log_details_restE d action
        | none => .ok (.str s)
    | d => breeze_account_log_details_restE d action

/-- The `log_parser` closure of `breeze_account_log` (lines 641-661): a
string `object_json` is double-decoded for the tag actions (uncaught) or
JSON-decoded with a logged warning on failure (kept as the raw string), and
the result walked by `_unknown_value_formatter_` under the placeholder key;
`details` dispatches through `breeze_account_log_details` (enum members are
always truthy, so the `if action:` guard always holds); everything else
falls to `_unknown_value_formatter_`. -/
def log_parserE (action : AccountLogActions) (key : String) (value : JValue) :
    Except RunErr JValue :=
  if key == "object_json" then do
    let value ← (match value with
      | .str s =>
        if action = .tag_unassign || action = .tag_assign then
          loads_double_stringifiedE (.str s)
        else if jTruthy (.str s) then
          pure ((json_loads s).getD (.str s))
        else pure (.str s)
      | v => pure v)
    unknown_value_formatterE "_" value
  else if key == "details" then
    breeze_account_log_detailsE value action
  else unknown_value_formatterE key value

/-- `AccountLogActions[account_log.get("action")]` (line 639): Python Enum
subscripting raises KeyError for a hashable value that is not a member name
(including `None` when the key is absent) and TypeError for unhashable
values (dicts and lists). -/
def lookupActionE (v : JValue) : Except PyExn AccountLogActions :=
  match v with
  | .str s =>
    match actionOfName s with
    | some a => .ok a
    | none => .error (.keyError s)
  | .obj _ => .error (.other (.typeError "unhashable type"))
  | .list _ => .error (.other (.typeError "unhashable type"))
  | w => .error (.keyError (pyStr w))

/-- `ReturnTypeParsers.breeze_account_log` (lines 638-668): the action kind
is resolved first - an unknown name raises before any field is normalized -
then the dict is walked with `log_parser` and the resolved enum member is
stored back under `action` (the walk of a dict always yields a dict; the
catch-all keeps the definition total). -/
def breeze_account_logE (account_log : List (String × JValue)) : Except PyExn JValue :=
  match lookupActionE (dictGetD account_log "action" .null) with
  | .error e => .error e
  | .ok action =>
    match parse_typesE (some (log_parserE action)) (.obj account_log) with
    | .error e => .error (.other e)
    | .ok parsed =>
      .ok (match parsed with
        | .obj kvs => .obj (dictSet kvs "action" (.action action))
        | v => v)

end ReturnTypeParsers

/-! ## Helper lemmas for the claims -/

/-- The `strptime` model only ever raises ValueError, so the ValueError
catch in `str_to_date` is exhaustive and the re-raise branch is dead. -/
theorem strptimeE_error_valueError (fmt : DateFmt) (s : String) (e : RunErr)
    (h : strptimeE fmt s = .error e) : e = .valueError s := by
  unfold strptimeE at h
  split at h
  · exact (Except.error.inj h).symm
  · split at h
    · exact absurd h (by simp)
    · exact (Except.error.inj h).symm

/-- `str_to_date` never raises: the only exception inside it (ValueError
from `strptime`) is caught and turned into `None`. -/
theorem str_to_dateE_ok (v : JValue) : ∃ r, type_parsing.str_to_dateE v = .ok r := by
  unfold type_parsing.str_to_dateE
  by_cases hT : jTruthy v = false
  · exact ⟨v, by simp [hT]⟩
  · simp only [if_neg hT]
    cases v with
    | str s =>
      cases hm : firstMatchingFormat s with
      | none => exact ⟨.str s, by simp [hm]⟩
      | some fmt =>
        cases hp : strptimeE fmt s with
        | ok d => exact ⟨.date d, by simp [hm, hp]⟩
        | error e =>
          have he := strptimeE_error_valueError fmt s e hp
          subst he
          exact ⟨.null, by simp [hm, hp]⟩
    | null => exact ⟨_, rfl⟩
    | bool b => exact ⟨_, rfl⟩
    | int n => exact ⟨_, rfl⟩
    | float q => exact ⟨_, rfl⟩
    | date d => exact ⟨_, rfl⟩
    | action a => exact ⟨_, rfl⟩
    | list xs => exact ⟨_, rfl⟩
    | obj kvs => exact ⟨_, rfl⟩



/-! ## Claims -/

/-- Helper: is the value a Python `str`? -/
def isJStr : JValue → Bool
  | .str _ => true
  | _ => false

/-- C3: for an account log with action `tag_assign` whose `details` field is
the doubly JSON-encoded string for the map sending "5" to "123" and "6" to
the empty string, `breeze_account_log_details` returns exactly the list
`[123]`: the payload is double-decoded, the resulting map flattened to its
value list, empty-string entries removed, and remaining numeric strings
coerced to integers. -/
theorem tag_assign_details_double_decode :
    ReturnTypeParsers.breeze_account_log_detailsE
      (.str "\"\x7b\\\"5\\\":\\\"123\\\",\\\"6\\\":\\\"\\\"\x7d\"")
      AccountLogActions.tag_assign
    = .ok (.list [.int 123]) := rfl

/-- C9: `to_bool` is idempotent on every embedded value (in particular on
booleans, strings, integers and floats). -/
theorem to_bool_idempotent (v : JValue) :
    type_parsing.to_bool (type_parsing.to_bool v) = type_parsing.to_bool v := by
  cases v <;>
    first
    | rfl
    | (simp only [type_parsing.to_bool]
       split_ifs <;> simp_all [type_parsing.to_bool])

/-- C4, counterexample: `-9223372036854775808` is `-2^63`, which lies within
the signed-64-bit range, yet `str_to_int` returns the string unchanged (the
code keeps integers only when `bit_length() <= 63`, i.e. when the magnitude
is at most `2^63 - 1`), so "parses if and only if the value lies within the
signed-64-bit range" fails at this input. -/
theorem str_to_int_min_int64_unchanged :
    type_parsing.str_to_int (.str "-9223372036854775808") = .str "-9223372036854775808"
    ∧ -(2 : Int) ^ 63 ≤ -9223372036854775808
    ∧ (-9223372036854775808 : Int) ≤ 2 ^ 63 - 1 := by
  refine ⟨rfl, by norm_num, by norm_num⟩

/-- C4, amended: for a string matching `^-?[0-9]+$`, `str_to_int` returns the
parsed integer if and only if its magnitude is at most `2^63 - 1` (Python
`bit_length() <= 63`; the boundary `-2^63`, though representable in signed
64 bits, is returned as the unchanged string); non-matching strings and
non-string inputs are returned unchanged; `9223372036854775807` parses and
`99999999999999999999` stays a string. -/
theorem str_to_int_spec :
    (∀ s : String, intPat s = true →
      ((parseIntStr s).natAbs < 2 ^ 63 →
        type_parsing.str_to_int (.str s) = .int (parseIntStr s))
      ∧ (2 ^ 63 ≤ (parseIntStr s).natAbs →
        type_parsing.str_to_int (.str s) = .str s))
    ∧ (∀ s : String, intPat s = false → type_parsing.str_to_int (.str s) = .str s)
    ∧ (∀ v : JValue, isJStr v = false → type_parsing.str_to_int v = v)
    ∧ type_parsing.str_to_int (.str "9223372036854775807") = .int 9223372036854775807
    ∧ type_parsing.str_to_int (.str "99999999999999999999") = .str "99999999999999999999" := by
  refine ⟨?_, ?_, ?_, rfl, rfl⟩
  · intro s hs
    constructor
    · intro h
      have h' : (parseIntStr s).natAbs < 9223372036854775808 := by
        norm_num at h
        exact h
      simp [type_parsing.str_to_int, hs, h']
    · intro h
      have h' : ¬ (parseIntStr s).natAbs < 9223372036854775808 := by
        norm_num at h
        omega
      simp [type_parsing.str_to_int, hs, h']
  · intro s hs
    simp [type_parsing.str_to_int, hs]
  · intro v hv
    cases v <;> simp_all [isJStr, type_parsing.str_to_int]

/-- C4 witness: the amended specification evaluated at concrete inputs. -/
theorem str_to_int_spec_witness :
    type_parsing.str_to_int (.str "5") = .int 5
    ∧ type_parsing.str_to_int (.str "12x") = .str "12x"
    ∧ type_parsing.str_to_int (.int 7) = .int 7 := by
  refine ⟨(str_to_int_spec.1 "5" rfl).1 (by decide),
    str_to_int_spec.2.1 "12x" rfl,
    str_to_int_spec.2.2.1 (.int 7) rfl⟩

/-- C5, counterexample: the string `00-00-00` matches none of the four date
patterns (each requires a four-digit year), so `str_to_date` returns it
unchanged - not `null` as the claim states. -/
theorem str_to_date_00_00_00_unchanged :
    type_parsing.str_to_dateE (.str "00-00-00") = .ok (.str "00-00-00")
    ∧ Except.ok (JValue.str "00-00-00") ≠ (.ok .null : Except RunErr JValue) := by
  exact ⟨rfl, by simp⟩

/-- C5, amended: `str_to_date` tries the four date patterns in their fixed
dict order and the first regex match decides the single format used; when
that format's calendar parse fails (e.g. for the all-zero sentinel
`0000-00-00`) the result is `null`, not the original string; when it
succeeds the parsed datetime is returned; a string matching no pattern is
returned unchanged. -/
theorem str_to_date_spec :
    (∀ (s : String) (fmt : DateFmt), firstMatchingFormat s = some fmt →
      (∀ e, strptimeE fmt s = .error e →
        type_parsing.str_to_dateE (.str s) = .ok .null)
      ∧ (∀ d, strptimeE fmt s = .ok d →
        type_parsing.str_to_dateE (.str s) = .ok (.date d)))
    ∧ (∀ s : String, firstMatchingFormat s = none →
        type_parsing.str_to_dateE (.str s) = .ok (.str s))
    ∧ type_parsing.str_to_dateE (.str "0000-00-00") = .ok .null := by
  refine ⟨?_, ?_, rfl⟩
  · intro s fmt hm
    have hne : s ≠ "" := by
      intro he
      subst he
      rw [show firstMatchingFormat "" = none from rfl] at hm
      exact absurd hm (by simp)
    have hT : jTruthy (.str s) = true := by
      have hE : s.isEmpty = false := by
        cases hE : s.isEmpty
        · rfl
        · exact absurd ((String.isEmpty_iff s).mp hE) hne
      simp [jTruthy, hE]
    constructor
    · intro e hp
      have he := strptimeE_error_valueError fmt s e hp
      subst he
      simp [type_parsing.str_to_dateE, hT, hm, hp]
    · intro d hp
      simp [type_parsing.str_to_dateE, hT, hm, hp]
  · intro s hm
    by_cases hT : jTruthy (.str s) = false
    · simp [type_parsing.str_to_dateE, hT]
    · simp [type_parsing.str_to_dateE, hT, hm]

/-- C5 witness: the amended specification evaluated at concrete inputs:
`0000-00-00` matches the second pattern but fails the calendar parse
(`null`), `2020-01-02` parses, `hello` matches nothing and is unchanged. -/
theorem str_to_date_spec_witness :
    type_parsing.str_to_dateE (.str "0000-00-00") = .ok .null
    ∧ type_parsing.str_to_dateE (.str "2020-01-02") = .ok (.date ⟨2020, 1, 2, 0, 0, 0⟩)
    ∧ type_parsing.str_to_dateE (.str "hello") = .ok (.str "hello") := by
  refine ⟨(str_to_date_spec.1 "0000-00-00" .ymd rfl).1 _ rfl,
    (str_to_date_spec.1 "2020-01-02" .ymd rfl).2 _ rfl,
    str_to_date_spec.2.1 "hello" rfl⟩

/-- Helper: truthiness of a non-empty string. -/
theorem jTruthy_str_ne (s : String) (h : s ≠ "") : jTruthy (.str s) = true := by
  have hE : s.isEmpty = false := by
    cases hE : s.isEmpty
    · rfl
    · exact absurd ((String.isEmpty_iff s).mp hE) h
  simp [jTruthy, hE]

/-- Helper: `str_to_date` passes every non-string value through unchanged
(falsy values via the truthiness guard, truthy ones via the catch-all). -/
theorem str_to_dateE_nonstr (v : JValue) (h : isJStr v = false) :
    type_parsing.str_to_dateE v = .ok v := by
  cases v
  case str s => exact absurd h (by simp [isJStr])
  all_goals unfold type_parsing.str_to_dateE
  all_goals split_ifs <;> rfl

/-- C7: the generic leaf coercion `_known_types_formatter_`: a key equal to
`id` or `oid` or containing `_id` routes the value through `type_parsing.id`;
for any other key with a string value, integer parse is tried first, then
float parse, then the date walk, the first success winning; when none of the
three coercions matches, the original string is returned. -/
theorem known_types_formatter_spec :
    (∀ (k : String) (v : JValue), isIdKey k = true →
      ReturnTypeParsers.known_types_formatterE k v = .ok (type_parsing.id v))
    ∧ (∀ (k s : String) (n : Int), isIdKey k = false →
      type_parsing.str_to_int (.str s) = .int n →
      ReturnTypeParsers.known_types_formatterE k (.str s) = .ok (.int n))
    ∧ (∀ (k s : String) (q : Rat), isIdKey k = false →
      type_parsing.str_to_int (.str s) = .str s →
      type_parsing.str_to_float (.str s) = .float q →
      ReturnTypeParsers.known_types_formatterE k (.str s) = .ok (.float q))
    ∧ (∀ (k s : String), isIdKey k = false →
      type_parsing.str_to_int (.str s) = .str s →
      type_parsing.str_to_float (.str s) = .str s →
      ReturnTypeParsers.known_types_formatterE k (.str s) = type_parsing.str_to_dateE (.str s))
    ∧ (∀ (k s : String), isIdKey k = false →
      type_parsing.str_to_int (.str s) = .str s →
      type_parsing.str_to_float (.str s) = .str s →
      firstMatchingFormat s = none →
      ReturnTypeParsers.known_types_formatterE k (.str s) = .ok (.str s)) := by
  refine ⟨?_, ?_, ?_, ?_, ?_⟩
  · intro k v h
    simp [ReturnTypeParsers.known_types_formatterE, h]
  · intro k s n hk hi
    simp [ReturnTypeParsers.known_types_formatterE, hk, hi]
  · intro k s q hk hi hf
    simp [ReturnTypeParsers.known_types_formatterE, hk, hi, hf]
  · intro k s hk hi hf
    simp [ReturnTypeParsers.known_types_formatterE, hk, hi, hf]
  · intro k s hk hi hf hm
    by_cases hT : jTruthy (.str s) = false
    · simp [ReturnTypeParsers.known_types_formatterE, hk, hi, hf,
        type_parsing.str_to_dateE, hT]
    · simp [ReturnTypeParsers.known_types_formatterE, hk, hi, hf,
        type_parsing.str_to_dateE, hT, hm]

/-- C7 witness: the five cases of the formatter evaluated at concrete
inputs. -/
theorem known_types_formatter_spec_witness :
    ReturnTypeParsers.known_types_formatterE "person_id" (.str "07") = .ok (.int 7)
    ∧ ReturnTypeParsers.known_types_formatterE "num" (.str "12") = .ok (.int 12)
    ∧ ReturnTypeParsers.known_types_formatterE "num" (.str "1.5")
      = .ok (.float (parseFloatStr "1.5"))
    ∧ ReturnTypeParsers.known_types_formatterE "when" (.str "2020-01-02")
      = type_parsing.str_to_dateE (.str "2020-01-02")
    ∧ ReturnTypeParsers.known_types_formatterE "note" (.str "hello") = .ok (.str "hello") := by
  refine ⟨known_types_formatter_spec.1 "person_id" (.str "07") rfl,
    known_types_formatter_spec.2.1 "num" "12" 12 rfl rfl,
    known_types_formatter_spec.2.2.1 "num" "1.5" (parseFloatStr "1.5") rfl rfl rfl,
    known_types_formatter_spec.2.2.2.1 "when" "2020-01-02" rfl rfl rfl,
    known_types_formatter_spec.2.2.2.2 "note" "hello" rfl rfl rfl rfl⟩

/-- Helper: the generic walk maps a list of integers to itself. -/
theorem parse_types_listE_ints (ns : List Int) :
    ReturnTypeParsers.parse_types_listE (ns.map JValue.int) = .ok (ns.map JValue.int) := by
  induction ns with
  | nil => rfl
  | cons n rest ih =>
    have hid : isIdKey "_" = false := rfl
    have h1 : ReturnTypeParsers.parse_typesE none (.int n) = .ok (.int n) := by
      simp [ReturnTypeParsers.parse_typesE, ReturnTypeParsers.known_types_formatterE,
        hid, str_to_dateE_nonstr (JValue.int n) rfl]
    simp only [List.map_cons, ReturnTypeParsers.parse_types_listE, h1, ih]
    rfl

/-- C10: for a `bulk_people_deleted` account log whose details value is a
non-empty string, `breeze_account_log_details` does not JSON-parse the
string; it returns the list of the integers denoted by the 7-to-10-digit
decimal substring matches, in order of occurrence (the empty list, returned
as-is, when there is no match). -/
theorem bulk_people_deleted_details (s : String) (h : s ≠ "") :
    ReturnTypeParsers.breeze_account_log_detailsE (.str s) .bulk_people_deleted
    = .ok (.list ((findall710 s.toList).map (fun ds => JValue.int (digitsToNat ds)))) := by
  have hT : jTruthy (.str s) = true := jTruthy_str_ne s h
  have hmap : (findall710 s.toList).map (fun ds => JValue.int (digitsToNat ds))
      = ((findall710 s.toList).map (fun ds => (digitsToNat ds : Int))).map JValue.int := by
    simp [List.map_map]
  have hstep : ReturnTypeParsers.breeze_account_log_detailsE (.str s) .bulk_people_deleted
      = ReturnTypeParsers.breeze_account_log_details_restE
          (.list ((findall710 s.toList).map (fun ds => JValue.int (digitsToNat ds))))
          .bulk_people_deleted := by
    unfold ReturnTypeParsers.breeze_account_log_detailsE
    simp [hT]
  rw [hstep, hmap]
  generalize ((findall710 s.toList).map (fun ds => (digitsToNat ds : Int))) = ns
  cases ns with
  | nil => rfl
  | cons n rest =>
    unfold ReturnTypeParsers.breeze_account_log_details_restE
    rw [if_neg (by simp [jTruthy])]
    rw [if_neg (by simp)]
    simp only [List.map_cons]
    rw [if_neg (by simp), if_neg (by simp), if_neg (by simp), if_neg (by simp)]
    simp only [ReturnTypeParsers.parse_typesE]
    rw [show JValue.int n :: List.map JValue.int rest = List.map JValue.int (n :: rest) from rfl,
      parse_types_listE_ints]
    rfl

/-- C10 witness: two digit runs, of lengths 7 and 12, yield the 7-digit match
and the greedy 10-digit prefix of the longer run. -/
theorem bulk_people_deleted_details_witness :
    ReturnTypeParsers.breeze_account_log_detailsE
      (.str "ids: 1234567, 123456789012!") .bulk_people_deleted
    = .ok (.list [.int 1234567, .int 1234567890]) :=
  bulk_people_deleted_details "ids: 1234567, 123456789012!" (by decide)

/-- C2: `breeze_account_log` resolves the action kind first.  When the
`action` value fails the enum lookup (an unknown name, or `None` for an
absent key), the whole call returns exactly the lookup's error - a KeyError,
raised before any field of the entry is normalized and distinct by
construction from every error the normalization layer can produce.  When the
`action` value is an enumerated name the lookup succeeds and no such
KeyError can be raised: errors of the remaining pipeline are embedded
through `PyExn.other` and never equal a KeyError. -/
theorem breeze_account_log_action_spec (log : List (String × JValue)) :
    (∀ e, ReturnTypeParsers.lookupActionE (dictGetD log "action" .null) = .error e →
      ReturnTypeParsers.breeze_account_logE log = .error e)
    ∧ (∀ s, dictGetD log "action" .null = .str s → actionOfName s = none →
      ReturnTypeParsers.breeze_account_logE log = .error (.keyError s))
    ∧ (dictGetD log "action" .null = .null →
      ReturnTypeParsers.breeze_account_logE log = .error (.keyError "None"))
    ∧ (∀ a, ReturnTypeParsers.lookupActionE (dictGetD log "action" .null) = .ok a →
      ∀ m, ReturnTypeParsers.breeze_account_logE log ≠ .error (.keyError m)) := by
  refine ⟨?_, ?_, ?_, ?_⟩
  · intro e he
    unfold ReturnTypeParsers.breeze_account_logE
    rw [he]
  · intro s hs hn
    have he : ReturnTypeParsers.lookupActionE (dictGetD log "action" .null)
        = .error (.keyError s) := by
      rw [hs]
      simp [ReturnTypeParsers.lookupActionE, hn]
    unfold ReturnTypeParsers.breeze_account_logE
    rw [he]
  · intro hs
    have he : ReturnTypeParsers.lookupActionE (dictGetD log "action" .null)
        = .error (.keyError "None") := by
      rw [hs]
      rfl
    unfold ReturnTypeParsers.breeze_account_logE
    rw [he]
  · intro a ha m
    unfold ReturnTypeParsers.breeze_account_logE
    rw [ha]
    dsimp only
    cases hp : ReturnTypeParsers.parse_typesE
        (some (ReturnTypeParsers.log_parserE a)) (.obj log) with
    | error e => simp
    | ok parsed => simp

/-- C2 witness: an unknown action name raises the KeyError immediately (even
with other fields present); an enumerated name never does. -/
theorem breeze_account_log_action_spec_witness :
    ReturnTypeParsers.breeze_account_logE
      [("action", .str "totally_new_action_2099"), ("details", .str "x")]
      = .error (.keyError "totally_new_action_2099")
    ∧ ReturnTypeParsers.breeze_account_logE [("action", .null)]
      = .error (.keyError "None")
    ∧ ReturnTypeParsers.breeze_account_logE [("action", .str "user_created")]
      ≠ .error (.keyError "user_created") := by
  refine ⟨(breeze_account_log_action_spec
      [("action", .str "totally_new_action_2099"), ("details", .str "x")]).2.1
      "totally_new_action_2099" rfl rfl,
    (breeze_account_log_action_spec [("action", .null)]).2.2.1 rfl,
    (breeze_account_log_action_spec [("action", .str "user_created")]).2.2.2
      .user_created rfl "user_created"⟩

/-- Every embedded value has positive size. -/
theorem jvalue_sizeOf_pos (v : JValue) : 0 < sizeOf v := by
  cases v <;> simp_arith

/-- Every list has positive size. -/
theorem list_sizeOf_pos {α : Type} [SizeOf α] (l : List α) : 0 < sizeOf l := by
  cases l <;> simp_arith

/-- A custom parser that never raises. -/
def OkCustom (custom : Option (String → JValue → Except RunErr JValue)) : Prop :=
  ∀ f, custom = some f → ∀ (k : String) (v : JValue), ∃ r, f k v = .ok r

theorem okCustom_none : OkCustom none := by
  intro f h
  exact absurd h (by simp)

/-- `_known_types_formatter_` never raises (the primitive coercers pass
unmatched values through, and `str_to_date` catches its ValueError). -/
theorem known_types_formatterE_ok (k : String) (v : JValue) :
    ∃ r, ReturnTypeParsers.known_types_formatterE k v = .ok r := by
  unfold ReturnTypeParsers.known_types_formatterE
  split
  · exact ⟨_, rfl⟩
  · split
    · split
      · exact ⟨_, rfl⟩
      · split
        · exact ⟨_, rfl⟩
        · exact str_to_dateE_ok _
    · exact str_to_dateE_ok _

/-- Bind of an `ok` computation reduces. -/
theorem except_ok_bind {α β : Type} (a : α) (f : α → Except RunErr β) :
    (Except.ok a >>= f) = f a := rfl

/-- Bind of a `pure` computation reduces. -/
theorem except_pure_bind {α β : Type} (a : α) (f : α → Except RunErr β) :
    ((pure a : Except RunErr α) >>= f) = f a := rfl

/-- `pure` is `ok`. -/
theorem except_pure_eq_ok {α : Type} (a : α) : (pure a : Except RunErr α) = Except.ok a := rfl

/-- Strong-induction core: `_parse_types_` and its two loops never raise
when the custom parser never raises. -/
theorem parse_types_ok_aux (N : Nat) :
    (∀ v : JValue, sizeOf v ≤ N → ∀ custom, OkCustom custom →
      ∃ r, ReturnTypeParsers.parse_typesE custom v = .ok r)
    ∧ (∀ xs : List JValue, sizeOf xs ≤ N →
      ∃ rs, ReturnTypeParsers.parse_types_listE xs = .ok rs)
    ∧ (∀ kvs : List (String × JValue), sizeOf kvs ≤ N → ∀ custom, OkCustom custom →
      ∃ rs, ReturnTypeParsers.parse_types_objE custom kvs = .ok rs) := by
  induction N with
  | zero =>
    refine ⟨?_, ?_, ?_⟩
    · intro v hv
      exact absurd hv (by have := jvalue_sizeOf_pos v; omega)
    · intro xs hxs
      exact absurd hxs (by have := list_sizeOf_pos xs; omega)
    · intro kvs hkvs
      exact absurd hkvs (by have := list_sizeOf_pos kvs; omega)
  | succ N ih =>
    refine ⟨?_, ?_, ?_⟩
    · intro v hv custom hc
      cases v with
      | list xs =>
        have hxs : sizeOf xs ≤ N := by
          have := JValue.list.sizeOf_spec xs
          omega
        obtain ⟨rs, hrs⟩ := ih.2.1 xs hxs
        exact ⟨.list rs, by simp only [ReturnTypeParsers.parse_typesE, except_ok_bind, except_pure_bind, except_pure_eq_ok, hrs]⟩
      | obj kvs =>
        have hkvs : sizeOf kvs ≤ N := by
          have := JValue.obj.sizeOf_spec kvs
          omega
        obtain ⟨rs, hrs⟩ := ih.2.2 kvs hkvs custom hc
        exact ⟨.obj rs, by simp only [ReturnTypeParsers.parse_typesE, except_ok_bind, except_pure_bind, except_pure_eq_ok, hrs]⟩
      | null => exact known_types_formatterE_ok "_" _
      | bool b => exact known_types_formatterE_ok "_" _
      | int n => exact known_types_formatterE_ok "_" _
      | float q => exact known_types_formatterE_ok "_" _
      | str s => exact known_types_formatterE_ok "_" _
      | date d => exact known_types_formatterE_ok "_" _
      | action a => exact known_types_formatterE_ok "_" _
    · intro xs hxs
      cases xs with
      | nil => exact ⟨[], rfl⟩
      | cons x rest =>
        have hx : sizeOf x ≤ N := by
          have := List.cons.sizeOf_spec x rest
          have := list_sizeOf_pos rest
          omega
        have hrest : sizeOf rest ≤ N := by
          have := List.cons.sizeOf_spec x rest
          have := jvalue_sizeOf_pos x
          omega
        obtain ⟨r, hr⟩ := ih.1 x hx none okCustom_none
        obtain ⟨rs, hrs⟩ := ih.2.1 rest hrest
        exact ⟨r :: rs, by simp only [ReturnTypeParsers.parse_types_listE, except_ok_bind, except_pure_bind, except_pure_eq_ok, hr, hrs]⟩
    · intro kvs hkvs custom hc
      cases kvs with
      | nil => exact ⟨[], rfl⟩
      | cons kv rest =>
        obtain ⟨k, v⟩ := kv
        have hv : sizeOf v ≤ N := by
          have := List.cons.sizeOf_spec (k, v) rest
          have := Prod.mk.sizeOf_spec k v
          have := list_sizeOf_pos rest
          omega
        have hrest : sizeOf rest ≤ N := by
          have := List.cons.sizeOf_spec (k, v) rest
          have := Prod.mk.sizeOf_spec k v
          have := jvalue_sizeOf_pos v
          omega
        cases custom with
        | none =>
          obtain ⟨v2, hv2⟩ := known_types_formatterE_ok k v
          obtain ⟨rs, hrs⟩ := ih.2.2 rest hrest none okCustom_none
          exact ⟨(k, v2) :: rs,
            by simp only [ReturnTypeParsers.parse_types_objE, except_ok_bind,
              except_pure_bind, except_pure_eq_ok, hv2, hrs]⟩
        | some f =>
          obtain ⟨v1, hv1⟩ := hc f rfl k v
          obtain ⟨v2, hv2⟩ := known_types_formatterE_ok k v1
          obtain ⟨rs, hrs⟩ := ih.2.2 rest hrest (some f) hc
          exact ⟨(k, v2) :: rs,
            by simp only [ReturnTypeParsers.parse_types_objE, except_ok_bind,
              except_pure_bind, except_pure_eq_ok, hv1, hv2, hrs]⟩

/-- Strong-induction core: `_unknown_value_formatter_` never raises. -/
theorem unknown_value_ok_aux (N : Nat) :
    (∀ (k : String) (v : JValue), sizeOf v ≤ N →
      ∃ r, ReturnTypeParsers.unknown_value_formatterE k v = .ok r)
    ∧ (∀ kvs : List (String × JValue), sizeOf kvs ≤ N →
      ∃ rs, ReturnTypeParsers.unknown_value_objE kvs = .ok rs)
    ∧ (∀ xs : List JValue, sizeOf xs ≤ N →
      ∃ rs, ReturnTypeParsers.unknown_value_listE xs = .ok rs) := by
  induction N with
  | zero =>
    refine ⟨?_, ?_, ?_⟩
    · intro k v hv
      exact absurd hv (by have := jvalue_sizeOf_pos v; omega)
    · intro kvs hkvs
      exact absurd hkvs (by have := list_sizeOf_pos kvs; omega)
    · intro xs hxs
      exact absurd hxs (by have := list_sizeOf_pos xs; omega)
  | succ N ih =>
    refine ⟨?_, ?_, ?_⟩
    · intro k v hv
      cases v with
      | obj kvs =>
        have hkvs : sizeOf kvs ≤ N := by
          have := JValue.obj.sizeOf_spec kvs
          omega
        obtain ⟨rs, hrs⟩ := ih.2.1 kvs hkvs
        exact ⟨.obj rs, by simp only [ReturnTypeParsers.unknown_value_formatterE, except_ok_bind, except_pure_bind, except_pure_eq_ok, hrs]⟩
      | list xs =>
        have hxs : sizeOf xs ≤ N := by
          have := JValue.list.sizeOf_spec xs
          omega
        obtain ⟨rs, hrs⟩ := ih.2.2 xs hxs
        exact ⟨.list rs, by simp only [ReturnTypeParsers.unknown_value_formatterE, except_ok_bind, except_pure_bind, except_pure_eq_ok, hrs]⟩
      | null => exact known_types_formatterE_ok k _
      | bool b => exact known_types_formatterE_ok k _
      | int n => exact known_types_formatterE_ok k _
      | float q => exact known_types_formatterE_ok k _
      | str s => exact known_types_formatterE_ok k _
      | date d => exact known_types_formatterE_ok k _
      | action a => exact known_types_formatterE_ok k _
    · intro kvs hkvs
      cases kvs with
      | nil => exact ⟨[], rfl⟩
      | cons kv rest =>
        obtain ⟨k, v⟩ := kv
        have hv : sizeOf v ≤ N := by
          have := List.cons.sizeOf_spec (k, v) rest
          have := Prod.mk.sizeOf_spec k v
          have := list_sizeOf_pos rest
          omega
        have hrest : sizeOf rest ≤ N := by
          have := List.cons.sizeOf_spec (k, v) rest
          have := Prod.mk.sizeOf_spec k v
          have := jvalue_sizeOf_pos v
          omega
        obtain ⟨v1, hv1⟩ := ih.1 k v hv
        obtain ⟨v2, hv2⟩ := known_types_formatterE_ok k v1
        obtain ⟨rs, hrs⟩ := ih.2.1 rest hrest
        exact ⟨(k, v2) :: rs,
          by simp only [ReturnTypeParsers.unknown_value_objE, except_ok_bind, except_pure_bind, except_pure_eq_ok, hv1, hv2, hrs]⟩
    · intro xs hxs
      cases xs with
      | nil => exact ⟨[], rfl⟩
      | cons x rest =>
        have hx : sizeOf x ≤ N := by
          have := List.cons.sizeOf_spec x rest
          have := list_sizeOf_pos rest
          omega
        have hrest : sizeOf rest ≤ N := by
          have := List.cons.sizeOf_spec x rest
          have := jvalue_sizeOf_pos x
          omega
        obtain ⟨r, hr⟩ := ih.1 "_" x hx
        obtain ⟨rs, hrs⟩ := ih.2.2 rest hrest
        exact ⟨r :: rs, by simp only [ReturnTypeParsers.unknown_value_listE, except_ok_bind, except_pure_bind, except_pure_eq_ok, hr, hrs]⟩

/-- `_unknown_value_formatter_` never raises. -/
theorem unknown_value_formatterE_ok (k : String) (v : JValue) :
    ∃ r, ReturnTypeParsers.unknown_value_formatterE k v = .ok r :=
  (unknown_value_ok_aux (sizeOf v)).1 k v (le_refl _)

/-- Does no coercion pattern of the generic leaf formatter match?  For an
id-like key: the value is not a digit string; otherwise a string must match
neither the int pattern, nor the float pattern, nor any date pattern;
non-string scalars never match a pattern; lists and dicts are not leaves. -/
def coercionFree (k : String) (v : JValue) : Bool :=
  match v with
  | .list _ => false
  | .obj _ => false
  | .str s =>
    if isIdKey k then !digitsPat s
    else !intPat s && !floatPat s && (firstMatchingFormat s).isNone
  | _ => true

/-- The leaf formatter returns every value matching no coercion pattern
unchanged. -/
theorem known_types_formatterE_coercionFree :
    ∀ (k : String) (v : JValue), coercionFree k v = true →
      ReturnTypeParsers.known_types_formatterE k v = .ok v := by
  intro k v h
  cases v with
    | list xs => exact absurd h (by simp [coercionFree])
    | obj kvs => exact absurd h (by simp [coercionFree])
    | str s =>
      by_cases hk : isIdKey k = true
      · have hd : digitsPat s = false := by
          simp [coercionFree, hk] at h
          exact h
        simp only [ReturnTypeParsers.known_types_formatterE, hk, if_pos]
        simp [type_parsing.id, hd]
      · have hk' : isIdKey k = false := by simp_all
        simp only [coercionFree, hk', if_neg, Bool.and_eq_true, Bool.not_eq_true,
          Option.isNone_iff_eq_none, Bool.ite_eq_true_distrib] at h
        obtain ⟨⟨hi0, hf0⟩, hm⟩ := h
        have hi : intPat s = false := by simpa using hi0
        have hf : floatPat s = false := by simpa using hf0
        have h1 : type_parsing.str_to_int (.str s) = .str s := by
          simp [type_parsing.str_to_int, hi]
        have h2 : type_parsing.str_to_float (.str s) = .str s := by
          simp [type_parsing.str_to_float, hf]
        have h4 : type_parsing.str_to_dateE (.str s) = .ok (.str s) := by
          by_cases hT : jTruthy (.str s) = false
          · simp [type_parsing.str_to_dateE, hT]
          · simp [type_parsing.str_to_dateE, hT, hm]
        simp [ReturnTypeParsers.known_types_formatterE, hk', h1, h2, h4]
    | null =>
      simp [ReturnTypeParsers.known_types_formatterE, type_parsing.id,
        str_to_dateE_nonstr (JValue.null) rfl]
    | bool b =>
      simp [ReturnTypeParsers.known_types_formatterE, type_parsing.id,
        str_to_dateE_nonstr (JValue.bool b) rfl]
    | int n =>
      simp [ReturnTypeParsers.known_types_formatterE, type_parsing.id,
        str_to_dateE_nonstr (JValue.int n) rfl]
    | float q =>
      simp [ReturnTypeParsers.known_types_formatterE, type_parsing.id,
        str_to_dateE_nonstr (JValue.float q) rfl]
    | date d =>
      simp [ReturnTypeParsers.known_types_formatterE, type_parsing.id,
        str_to_dateE_nonstr (JValue.date d) rfl]
    | action a =>
      simp [ReturnTypeParsers.known_types_formatterE, type_parsing.id,
        str_to_dateE_nonstr (JValue.action a) rfl]

/-- C1: the generic walk never raises for any well-formed input value - both
with no entity override and with the recursive `_unknown_value_formatter_`
override - and every leaf value matching no coercion pattern is returned
unchanged, both by the leaf formatter the walk applies under each key and by
the walk itself on a scalar. -/
theorem generic_walk_never_raises :
    (∀ v : JValue, ∃ r, ReturnTypeParsers.parse_typesE none v = .ok r)
    ∧ (∀ v : JValue, ∃ r, ReturnTypeParsers.parse_typesE
        (some ReturnTypeParsers.unknown_value_formatterE) v = .ok r)
    ∧ (∀ (k : String) (v : JValue), coercionFree k v = true →
        ReturnTypeParsers.known_types_formatterE k v = .ok v)
    ∧ (∀ v : JValue, coercionFree "_" v = true →
        ReturnTypeParsers.parse_typesE none v = .ok v) := by
  refine ⟨?_, ?_, known_types_formatterE_coercionFree, ?_⟩
  · intro v
    exact (parse_types_ok_aux (sizeOf v)).1 v (le_refl _) none okCustom_none
  · intro v
    refine (parse_types_ok_aux (sizeOf v)).1 v (le_refl _) _ ?_
    intro f hf k w
    cases hf
    exact unknown_value_formatterE_ok k w
  · intro v h
    have hfmt := known_types_formatterE_coercionFree "_" v h
    cases v with
    | list xs => exact absurd h (by simp [coercionFree])
    | obj kvs => exact absurd h (by simp [coercionFree])
    | null => exact hfmt
    | bool b => exact hfmt
    | int n => exact hfmt
    | float q => exact hfmt
    | str s => exact hfmt
    | date d => exact hfmt
    | action a => exact hfmt

/-- C1 witness: the unchanged-leaf conjuncts evaluated at a concrete
pattern-free leaf. -/
theorem generic_walk_never_raises_witness :
    ReturnTypeParsers.known_types_formatterE "note" (.str "n/a") = .ok (.str "n/a")
    ∧ ReturnTypeParsers.parse_typesE none (.str "n/a") = .ok (.str "n/a") :=
  ⟨generic_walk_never_raises.2.2.1 "note" (.str "n/a") (by decide),
    generic_walk_never_raises.2.2.2 (.str "n/a") (by decide)⟩

/-- Bind of an `error` computation short-circuits. -/
theorem except_error_bind {α β : Type} (e : RunErr) (f : α → Except RunErr β) :
    ((Except.error e : Except RunErr α) >>= f) = .error e := rfl

/-- Digit characters are digits. -/
theorem digitChar_isDigit (d : Nat) : (digitChar d).isDigit = true := by
  unfold digitChar
  split <;> decide

/-- Every character produced by `natToCharsAux` is a digit. -/
theorem natToCharsAux_digits (fuel : Nat) :
    ∀ (n : Nat), ∀ c ∈ natToCharsAux fuel n, c.isDigit = true := by
  induction fuel with
  | zero =>
    intro n c hc
    simp [natToCharsAux] at hc
  | succ f ih =>
    intro n c hc
    cases n with
    | zero => simp [natToCharsAux] at hc
    | succ m =>
      simp only [natToCharsAux, List.mem_cons] at hc
      rcases hc with h | h
      · subst h
        exact digitChar_isDigit _
      · exact ih _ c h

/-- Decimal representations consist of digits, so `str(i)` can never equal
`search_fields`. -/
theorem natToStr_ne_search_fields (n : Nat) : natToStr n ≠ "search_fields" := by
  unfold natToStr
  split
  · decide
  · intro hEq
    have hl : (natToCharsAux n n).reverse = "search_fields".data := congrArg String.data hEq
    have h1 : 's' ∈ (natToCharsAux n n).reverse := by
      rw [hl]
      decide
    have h2 : 's' ∈ natToCharsAux n n := List.mem_reverse.mp h1
    have h3 := natToCharsAux_digits n n 's' h2
    exact absurd h3 (by decide)

/-- Popping `search_fields` from the index-keyed dict with a trailing
`search_fields` entry removes exactly that entry. -/
theorem dictPop_sf_append (A : List (String × JValue))
    (hA : ∀ kv ∈ A, (kv.1 == "search_fields") = false) (s : JValue) :
    dictPop "search_fields" (A ++ [("search_fields", s)]) = A := by
  induction A with
  | nil => simp [dictPop, List.eraseP_cons]
  | cons kv rest ih =>
    have hkv := hA kv (List.mem_cons_self kv rest)
    have hrest : ∀ kv ∈ rest, (kv.1 == "search_fields") = false := by
      intro kv' h'
      exact hA kv' (List.mem_cons_of_mem kv h')
    simp [dictPop, List.eraseP_cons, hkv] at ih ⊢
    exact ih (by
      intro a b hab
      have := hrest (a, b) hab
      simpa using this)

/-- The trailing `search_fields` entry is found by `containsKey`. -/
theorem containsKey_sf_append (A : List (String × JValue)) (s : JValue) :
    containsKey "search_fields" (A ++ [("search_fields", s)]) = true := by
  simp [containsKey]

/-- An index-keyed map with keys `str(0) .. str(n-1)` passes the
`object_list` index check. -/
theorem objIsIndexList_range (n : Nat) (p : Nat → JValue) :
    type_parsing.objIsIndexList ((List.range n).map (fun i => (natToStr i, p i))) = true := by
  unfold type_parsing.objIsIndexList
  rw [List.all_eq_true]
  intro i hi
  rw [List.length_map, List.length_range] at hi
  rw [List.any_eq_true]
  refine ⟨(natToStr i, p i), List.mem_map.mpr ⟨i, hi, rfl⟩, by simp⟩

/-- C6: normalizing the index-keyed person object with decimal keys
`0 .. n-1` plus a `search_fields` entry yields exactly the same result as
normalizing the true list of the same person values (with the same schema
context); the `search_fields` entry is discarded by the unwrap. -/
theorem person_index_keyed_equals_list (n : Nat) (p : Nat → JValue) (s : JValue)
    (pf : List JValue) :
    ReturnTypeParsers.personE
      (.obj (((List.range n).map (fun i => (natToStr i, p i))) ++ [("search_fields", s)])) pf
    = ReturnTypeParsers.personE (.list ((List.range n).map p)) pf := by
  unfold ReturnTypeParsers.personE
  cases hL : ReturnTypeParsers.profile_fields_parsering_ids_lookupE pf with
  | error e => simp only [hL, except_error_bind]
  | ok ids =>
    simp only [hL, except_ok_bind]
    have hA : ∀ kv ∈ (List.range n).map (fun i => (natToStr i, p i)),
        (kv.1 == "search_fields") = false := by
      intro kv hkv
      obtain ⟨i, _, hi⟩ := List.mem_map.mp hkv
      subst hi
      simp only [beq_eq_false_iff_ne, ne_eq]
      exact natToStr_ne_search_fields i
    have hck := containsKey_sf_append ((List.range n).map (fun i => (natToStr i, p i))) s
    have hpop := dictPop_sf_append ((List.range n).map (fun i => (natToStr i, p i))) hA s
    have hidx := objIsIndexList_range n p
    have hsnd : ((List.range n).map (fun i => (natToStr i, p i))).map Prod.snd
        = (List.range n).map p := by
      simp [List.map_map]
    simp only [hck, if_true, hpop, hidx, hsnd]

/-- C8: with a schema context declaring field id `900` of type `email`, a
person whose details blob stores under `900` an email record with
`is_primary` set to the string `1` and an address normalizes to the same
record with `is_primary` cast to the boolean `true` and the address string
untouched. -/
theorem person_email_schema_roundtrip :
    ReturnTypeParsers.personE
      (.obj [("details", .obj [("900",
        .obj [("is_primary", .str "1"), ("address", .str "a@b.com")])])])
      [.obj [("fields", .list [.obj [("field_id", .str "900"), ("field_type", .str "email")]])]]
    = .ok (.obj [("details", .obj [("900",
        .obj [("is_primary", .bool true), ("address", .str "a@b.com")])])]) := by
  rw [ReturnTypeParsers.personE]
  rw [show ReturnTypeParsers.profile_fields_parsering_ids_lookupE
      [.obj [("fields", .list [.obj [("field_id", .str "900"), ("field_type", .str "email")]])]]
    = .ok (ParsingIds.mk ["900"] [] []) from rfl]
  rw [except_ok_bind]
  try dsimp only
  rw [if_neg (by decide)]
  rw [ReturnTypeParsers._personE]
  try dsimp only
  rw [ReturnTypeParsers._person_objE]
  try dsimp only
  rw [if_neg (by decide), if_pos (by decide)]
  try dsimp only
  rw [show ReturnTypeParsers.person_detailsE
      (.obj [("900", .obj [("is_primary", .str "1"), ("address", .str "a@b.com")])])
      (ParsingIds.mk ["900"] [] [])
    = .ok (.obj [("900", .obj [("is_primary", .bool true), ("address", .str "a@b.com")])]) from rfl]
  rw [except_ok_bind]
  rw [show ReturnTypeParsers.known_types_formatterE "details"
      (.obj [("900", .obj [("is_primary", .bool true), ("address", .str "a@b.com")])])
    = .ok (.obj [("900", .obj [("is_primary", .bool true), ("address", .str "a@b.com")])]) from rfl]
  rw [except_ok_bind]
  rw [ReturnTypeParsers._person_objE]
  rfl

/-! ## Bridge theorems: the loops inlined in the recursive definitions above
are exactly `_parse_types_` run with the corresponding source closures. -/

/-- The dict loop of `_unknown_value_formatter_` is the dict loop of
`_parse_types_` with `recursive_formatter` as the custom parser. -/
theorem unknown_value_objE_eq (kvs : List (String × JValue)) :
    ReturnTypeParsers.unknown_value_objE kvs
    = ReturnTypeParsers.parse_types_objE
        (some ReturnTypeParsers.unknown_value_formatterE) kvs := by
  induction kvs with
  | nil => rfl
  | cons kv rest ih =>
    obtain ⟨k, v⟩ := kv
    simp only [ReturnTypeParsers.unknown_value_objE, ReturnTypeParsers.parse_types_objE, ih]

/-- `_unknown_value_formatter_` on a dict is `_parse_types_` with itself as
the custom parser, exactly as in the source (lines 119-121). -/
theorem unknown_value_formatterE_obj_bridge (k : String) (kvs : List (String × JValue)) :
    ReturnTypeParsers.unknown_value_formatterE k (.obj kvs)
    = ReturnTypeParsers.parse_typesE
        (some ReturnTypeParsers.unknown_value_formatterE) (.obj kvs) := by
  simp only [ReturnTypeParsers.unknown_value_formatterE, ReturnTypeParsers.parse_typesE,
    unknown_value_objE_eq]

/-- The `family` list mapping of the person pack is a plain `mapM`. -/
theorem person_family_listE_eq (xs : List JValue) :
    ReturnTypeParsers.person_family_listE xs = xs.mapM ReturnTypeParsers.person_familyE := by
  induction xs with
  | nil =>
    rw [ReturnTypeParsers.person_family_listE.eq_def]
    rfl
  | cons x rest ih =>
    rw [ReturnTypeParsers.person_family_listE.eq_def, List.mapM_cons]
    dsimp only
    rw [ih]

/-- The dict loop of `person_family` is the dict loop of `_parse_types_`
with the `family_parser` closure. -/
theorem person_family_objE_eq (kvs : List (String × JValue)) :
    ReturnTypeParsers.person_family_objE kvs
    = ReturnTypeParsers.parse_types_objE (some ReturnTypeParsers.family_custom) kvs := by
  induction kvs with
  | nil =>
    rw [ReturnTypeParsers.person_family_objE.eq_def]
    rfl
  | cons kv rest ih =>
    obtain ⟨k, v⟩ := kv
    rw [ReturnTypeParsers.person_family_objE.eq_def, ReturnTypeParsers.parse_types_objE]
    dsimp only
    simp only [ih]
    cases hk : (k == "details") <;> cases v <;>
      simp [ReturnTypeParsers.family_custom, hk]

/-- `person_family` is `_parse_types_` with the `family_parser` closure
(lines 181-182). -/
theorem person_familyE_bridge (fm : JValue) :
    ReturnTypeParsers.person_familyE fm
    = ReturnTypeParsers.parse_typesE (some ReturnTypeParsers.family_custom) fm := by
  rw [ReturnTypeParsers.person_familyE.eq_def]
  cases fm <;> simp only [ReturnTypeParsers.parse_typesE, person_family_objE_eq]

/-- The person list mapping of the pack is a plain `mapM` of `_person`. -/
theorem person_listE_eq (ps : List JValue) (ids : ParsingIds) :
    ReturnTypeParsers.person_listE ps ids
    = ps.mapM (fun p => ReturnTypeParsers._personE p ids) := by
  induction ps with
  | nil =>
    rw [ReturnTypeParsers.person_listE.eq_def]
    rfl
  | cons p rest ih =>
    rw [ReturnTypeParsers.person_listE.eq_def, List.mapM_cons]
    dsimp only
    rw [ih]

/-- The dict loop of `_person` is the dict loop of `_parse_types_` with the
`person_formatter` closure. -/
theorem _person_objE_eq (kvs : List (String × JValue)) (ids : ParsingIds) :
    ReturnTypeParsers._person_objE kvs ids
    = ReturnTypeParsers.parse_types_objE (some (ReturnTypeParsers.person_custom ids)) kvs := by
  induction kvs with
  | nil =>
    rw [ReturnTypeParsers._person_objE.eq_def]
    rfl
  | cons kv rest ih =>
    obtain ⟨k, v⟩ := kv
    rw [ReturnTypeParsers._person_objE.eq_def, ReturnTypeParsers.parse_types_objE]
    dsimp only
    simp only [ih]
    cases hf : (k == "family" && jTruthy v) <;>
      cases hd : (k == "details" && jTruthy v) <;> cases v <;>
      simp [ReturnTypeParsers.person_custom, hf, hd, person_family_listE_eq]

/-- `_person` is `_parse_types_` with the `person_formatter` closure (lines
304-305). -/
theorem _personE_bridge (p : JValue) (ids : ParsingIds) :
    ReturnTypeParsers._personE p ids
    = ReturnTypeParsers.parse_typesE (some (ReturnTypeParsers.person_custom ids)) p := by
  rw [ReturnTypeParsers._personE.eq_def]
  cases p <;> simp only [ReturnTypeParsers.parse_typesE, _person_objE_eq]
